import Mathlib

/-!
# Point-cloud aggregation and PLY export of `samples/sfm/main_sfm.cpp`

A shallow embedding of the "C-lab" blocks of `main`:

* the per-frame aggregation block (source lines 343-376) acting on the file-scope
  globals declared at lines 57-65;
* the control flow of one iteration of the processing loop (lines 283-423) around that block;
* the shutdown extraction of the valid / total point vectors (lines 452-486);
* the three ASCII PLY writes (lines 493-527) and the value returned by `main`.

Conventions of the embedding.

* `float` is a type parameter `α` carrying only `+` and `*`; no algebraic law is assumed,
  so the generic results hold for IEEE arithmetic as well.  Results that speak about exact
  arithmetic instantiate `α := ℚ`.
* `int` is `Int` restricted to `[INT_MIN, INT_MAX]`.  Signed overflow is undefined behaviour in
  C++, hence every `int` operation that may overflow returns `Option Int` and the functions using
  it return `none` when the program has no defined behaviour.
* `std::vector` is `List`, `push_back x` is `fun v => v ++ [x]`.
* A `vx_array` point cloud whose query / access / commit calls succeed is the `List` of its items.
* `isPointValid` (declared in `utils.hpp`) and the text produced by `operator<<` on a `float`
  are parameters.
-/

namespace SfM

/-! ## Machine integers -/

/-- Largest value of the 32-bit C++ type `int`. -/
def INT_MAX : Int := 2147483647

/-- Smallest value of the 32-bit C++ type `int`. -/
def INT_MIN : Int := -2147483648

/-- Addition of two `int`s: the mathematical sum when it is representable, no result otherwise
(signed overflow is undefined behaviour). -/
def intAdd (a b : Int) : Option Int :=
  if INT_MIN ≤ a + b ∧ a + b ≤ INT_MAX then some (a + b) else none

/-- The values an `int` variable can hold. -/
def IsInt (i : Int) : Prop := INT_MIN ≤ i ∧ i ≤ INT_MAX

instance (i : Int) : Decidable (IsInt i) := inferInstanceAs (Decidable (_ ∧ _))

/-! ## Data -/

/-- The VisionWorks record `nvx_point3f_t`: three `float` coordinates. -/
structure nvx_point3f_t (α : Type) where
  x : α
  y : α
  z : α
deriving DecidableEq, Repr

/-- The element type `std::array<float, 3>` of the point vectors. -/
abbrev array3 (α : Type) : Type := α × α × α

/-- The file-scope globals of lines 57-65. -/
structure Globals (α : Type) where
  aggrigate_cloud_vector : List (array3 α)
  aggrigate_cloud_num : Int
  frame_num : Int
  frame_max : Int
  frame_inc : Int
  n_x : α
  inc : α
  n_y : α
  n_z : α
deriving DecidableEq, Repr

/-- The initial values written in the declarations of lines 57-65
(`0.0`, `0.5` and `1.0` are exactly representable, here they are rationals). -/
def globals : Globals ℚ :=
  { aggrigate_cloud_vector := []
    aggrigate_cloud_num := 0
    frame_num := 0
    frame_max := 50
    frame_inc := 0
    n_x := 0
    inc := 1 / 2
    n_y := 1
    n_z := 1 }

/-! ## The per-frame aggregation block (lines 343-376) -/

section Aggregation

variable {α : Type} [Add α] [Mul α]

/-- Body of the `for` loop of lines 358-372 for one item `pt` of the cloud. -/
def aggregatePoint (isPointValid : nvx_point3f_t α → Bool) (s : Globals α)
    (pt : nvx_point3f_t α) : Option (Globals α) :=
  if isPointValid pt then do
    let num ← intAdd s.aggrigate_cloud_num 1
    pure { s with
      aggrigate_cloud_num := num
      aggrigate_cloud_vector :=
        s.aggrigate_cloud_vector ++ [(pt.x + s.n_x, pt.y * s.n_y, pt.z * s.n_z)] }
  else
    pure s

/-- The `for` loop of lines 358-372 over the items of the cloud, in index order. -/
def aggregateLoop (isPointValid : nvx_point3f_t α → Bool) :
    Globals α → List (nvx_point3f_t α) → Option (Globals α)
  | s, [] => some s
  | s, pt :: rest =>
    match aggregatePoint isPointValid s pt with
    | none => none
    | some s1 => aggregateLoop isPointValid s1 rest

/-- Lines 343-376: the offset and the frame counter are advanced, then, when the advanced
counter is below `frame_max` and the cloud is not empty, the valid points are appended. -/
def frameStep (isPointValid : nvx_point3f_t α → Bool) (s : Globals α)
    (aggrigate_cloud : List (nvx_point3f_t α)) : Option (Globals α) :=
  match intAdd s.frame_num s.frame_inc with
  | none => none
  | some fn =>
    let s1 : Globals α := { s with n_x := s.n_x + s.inc, frame_num := fn }
    if s1.frame_num < s1.frame_max then
      if aggrigate_cloud.length > 0 then
        aggregateLoop isPointValid s1 aggrigate_cloud
      else
        some s1
    else
      some s1

/-- The aggregation block run on successive frames, one cloud per loop iteration that
reaches line 343. -/
def runFrames (isPointValid : nvx_point3f_t α → Bool) :
    Globals α → List (List (nvx_point3f_t α)) → Option (Globals α)
  | s, [] => some s
  | s, cloud :: rest =>
    match frameStep isPointValid s cloud with
    | none => none
    | some s1 => runFrames isPointValid s1 rest

/-- The point pushed at line 370 for the item `pt` under offset `nx` and scales `ny`, `nz`. -/
def shifted (nx ny nz : α) (pt : nvx_point3f_t α) : array3 α :=
  (pt.x + nx, pt.y * ny, pt.z * nz)

/-- The state left by the loop of lines 358-372 when it started in `s`. -/
def afterLoop (isPointValid : nvx_point3f_t α → Bool) (s : Globals α)
    (cloud : List (nvx_point3f_t α)) : Globals α :=
  { s with
    aggrigate_cloud_num := s.aggrigate_cloud_num + (cloud.countP isPointValid : Nat)
    aggrigate_cloud_vector :=
      s.aggrigate_cloud_vector ++ (cloud.filter isPointValid).map (shifted s.n_x s.n_y s.n_z) }

/-- The state left by lines 343-376 when they started in `s`: offset and counter advanced,
and the valid points appended when the advanced counter is below `frame_max`. -/
def afterStep (isPointValid : nvx_point3f_t α → Bool) (s : Globals α)
    (cloud : List (nvx_point3f_t α)) : Globals α :=
  let s1 : Globals α :=
    { s with n_x := s.n_x + s.inc, frame_num := s.frame_num + s.frame_inc }
  if s1.frame_num < s1.frame_max then afterLoop isPointValid s1 cloud else s1

/-- Number of valid points in a list of clouds. -/
def validCount (isPointValid : nvx_point3f_t α → Bool) :
    List (List (nvx_point3f_t α)) → Nat
  | [] => 0
  | cloud :: rest => cloud.countP isPointValid + validCount isPointValid rest

/-- What a run appends when every frame contributes all of its valid points: frame after
frame, the valid points shifted by the offset advanced once more per frame. -/
def allContributions (isPointValid : nvx_point3f_t α → Bool) (inc ny nz : α) :
    α → List (List (nvx_point3f_t α)) → List (array3 α)
  | _, [] => []
  | nx, cloud :: rest =>
    (cloud.filter isPointValid).map (shifted (nx + inc) ny nz)
      ++ allContributions isPointValid inc ny nz (nx + inc) rest

end Aggregation

/-- Globals of the scenario of the specification: gate enabled, `frame_max = 2`,
`inc = 0.5`, unit scales, everything else at its initial value. -/
def scenarioGlobals : Globals ℚ :=
  { globals with frame_max := 2, frame_inc := 1 }

/-- The three one-point clouds of the scenario. -/
def scenarioFrames : List (List (nvx_point3f_t ℚ)) :=
  [[⟨1, 2, 3⟩], [⟨0, 0, 0⟩], [⟨9, 9, 9⟩]]

/-- The validity predicate of the scenario: every point is valid. -/
def allValid (_ : nvx_point3f_t ℚ) : Bool := true

/-! ## One iteration of the processing loop (lines 283-423) -/

/-- The values of `ovxio::FrameSource::FrameStatus` that `source->fetch` returns. -/
inductive FrameStatus where
  | OK
  | TIMEOUT
  | CLOSED
deriving DecidableEq, Repr

/-- What the collaborators supply during one iteration of the `while` loop of line 283:
`eventData.pause` as read at line 285, the status returned by `source->fetch` at line 287,
the result of `source->open()` at line 297, the point cloud held by `sfm` after `sfm->init`
(line 309) and after `sfm->track` (line 319), and the result of `render3D->flush()` at
line 419. -/
structure Iteration (α : Type) where
  pause : Bool
  fetch : FrameStatus
  reopen : Bool
  initCloud : List (nvx_point3f_t α)
  trackCloud : List (nvx_point3f_t α)
  flush : Bool
deriving DecidableEq, Repr

/-- How an iteration ends: `again` when the loop goes on, `leave` when it is left by a `break`
or because `eventData.shouldStop` was set at line 421. -/
inductive Control where
  | again
  | leave
deriving DecidableEq, Repr

/-- The state carried from one iteration to the next: the globals of lines 57-65 and the point
cloud that `sfm->getPointCloud()` returns. -/
structure LoopState (α : Type) where
  globals : Globals α
  cloud : List (nvx_point3f_t α)
deriving DecidableEq, Repr

section Loop

variable {α : Type} [Add α] [Mul α]

/-- Lines 323-422 of an iteration that was not cut short by `continue` or `break`: rendering
(which does not touch the globals), then the aggregation block of lines 343-376 on
`sfm->getPointCloud()`, then `flush`. -/
def renderAndAggregate (isPointValid : nvx_point3f_t α → Bool) (globals : Globals α)
    (cloud : List (nvx_point3f_t α)) (flush : Bool) : Option (LoopState α × Control) :=
  match frameStep isPointValid globals cloud with
  | none => none
  | some g =>
    some ({ globals := g, cloud := cloud }, if flush then Control.again else Control.leave)

/-- One iteration of the loop of lines 283-423; `noLoop` is the command line option of
line 97.  Fetching and tracking happen only when `eventData.pause` is not set (lines 285-321);
`TIMEOUT` and `CLOSED` end the iteration before line 323; everything from line 323 on, the
aggregation block included, is outside the `if (!eventData.pause)`. -/
def loopIteration (isPointValid : nvx_point3f_t α → Bool) (noLoop : Bool) (st : LoopState α)
    (it : Iteration α) : Option (LoopState α × Control) :=
  if !it.pause then
    match it.fetch with
    | FrameStatus.TIMEOUT => some (st, Control.again)
    | FrameStatus.CLOSED =>
      if noLoop then some (st, Control.leave)
      else if !it.reopen then some (st, Control.leave)
      else some ({ st with cloud := it.initCloud }, Control.again)
    | FrameStatus.OK => renderAndAggregate isPointValid st.globals it.trackCloud it.flush
  else
    renderAndAggregate isPointValid st.globals st.cloud it.flush

/-- The loop of lines 283-423 over the successive iterations, up to the one that leaves it. -/
def runLoop (isPointValid : nvx_point3f_t α → Bool) (noLoop : Bool) :
    LoopState α → List (Iteration α) → Option (LoopState α)
  | st, [] => some st
  | st, it :: rest =>
    match loopIteration isPointValid noLoop st it with
    | none => none
    | some (st1, Control.again) => runLoop isPointValid noLoop st1 rest
    | some (st1, Control.leave) => some st1

end Loop

/-! ## Shutdown: extraction of the last cloud (lines 452-486) -/

/-- The locals `valid_point_vector`, `total_point_vector`, `valid_point_count` and
`total_point_count` of lines 453-456. -/
structure Extraction (α : Type) where
  valid_point_vector : List (array3 α)
  total_point_vector : List (array3 α)
  valid_point_count : Int
  total_point_count : Int
deriving DecidableEq, Repr

section Extract

variable {α : Type}

/-- Body of the `for` loop of lines 466-483 for one item `pt`. -/
def extractPoint (isPointValid : nvx_point3f_t α → Bool) (e : Extraction α)
    (pt : nvx_point3f_t α) : Option (Extraction α) :=
  let step1 : Option (Extraction α) :=
    if isPointValid pt then
      match intAdd e.valid_point_count 1 with
      | none => none
      | some c =>
        some { e with
          valid_point_count := c
          valid_point_vector := e.valid_point_vector ++ [(pt.x, pt.y, pt.z)] }
    else
      some e
  match step1 with
  | none => none
  | some e1 =>
    match intAdd e1.total_point_count 1 with
    | none => none
    | some c =>
      some { e1 with
        total_point_count := c
        total_point_vector := e1.total_point_vector ++ [(pt.x, pt.y, pt.z)] }

/-- The `for` loop of lines 466-483 over the items of the cloud, in index order. -/
def extractLoop (isPointValid : nvx_point3f_t α → Bool) :
    Extraction α → List (nvx_point3f_t α) → Option (Extraction α)
  | e, [] => some e
  | e, pt :: rest =>
    match extractPoint isPointValid e pt with
    | none => none
    | some e1 => extractLoop isPointValid e1 rest

/-- Lines 452-486: both vectors start empty and both counters at zero; a cloud with no item is
not accessed at all. -/
def extract (isPointValid : nvx_point3f_t α → Bool) (cloud : List (nvx_point3f_t α)) :
    Option (Extraction α) :=
  let e0 : Extraction α :=
    { valid_point_vector := [], total_point_vector := [],
      valid_point_count := 0, total_point_count := 0 }
  if cloud.length > 0 then extractLoop isPointValid e0 cloud else some e0

end Extract

/-! ## Shutdown: the three PLY writes (lines 493-527) -/

/-- What matters of a `std::ofstream`: whether a file is attached, the `failbit`, and the text
sent to the attached file so far.  The exception mask is never changed by the program, so a
failing operation only sets `failbit` and throws nothing. -/
structure ofstream where
  is_open : Bool
  failbit : Bool
  text : String
deriving DecidableEq, Repr

/-- A default-constructed stream followed by `open(path)`; `canOpen` tells which paths the file
system lets the process create.  A failed `open` sets `failbit`. -/
def openFile (canOpen : String → Bool) (path : String) : ofstream :=
  if canOpen path then
    { is_open := true, failbit := false, text := "" }
  else
    { is_open := false, failbit := true, text := "" }

/-- Formatted output `stream << str`: nothing is written once `failbit` is set. -/
def put (o : ofstream) (str : String) : ofstream :=
  if o.is_open && !o.failbit then { o with text := o.text ++ str } else o

/-- After `close()`: the content of the file on disk, if a file was created. -/
def closeFile (o : ofstream) : Option String :=
  if o.is_open then some o.text else none

section Write

variable {α : Type}

/-- The `for (int i = 0; i < v.size(); i++)` loops of lines 500-502, 512-514 and 524-526:
one line per remaining element, then `i++` on the `int` index. -/
def writePoints (fmt : α → String) : Int → ofstream → List (array3 α) → Option ofstream
  | _, o, [] => some o
  | i, o, p :: rest =>
    let o1 := put (put (put (put (put (put o (fmt p.1)) " ") (fmt p.2.1)) " ") (fmt p.2.2)) "\n"
    match intAdd i 1 with
    | none => none
    | some i1 => writePoints fmt i1 o1 rest

/-- The four header statements of a write (lines 495-498, 507-510, 519-522); `count` is the
separately kept counter printed after `element vertex`. -/
def writeHeader (o : ofstream) (count : Int) : ofstream :=
  let o := put o "ply\nformat ascii 1.0\nelement vertex "
  let o := put (put o (toString count)) "\n"
  let o := put o "property float x\nproperty float y\nproperty float z\n"
  put o "end_header\n"

/-- One of the three writes: the stream is opened, the header and the points of `v` are sent to
it, and it is closed.  The result is the content of the file, `none` inside when no file was
created. -/
def writePly (fmt : α → String) (canOpen : String → Bool) (path : String) (count : Int)
    (v : List (array3 α)) : Option (Option String) :=
  match writePoints fmt 0 (writeHeader (openFile canOpen path) count) v with
  | none => none
  | some o1 => some (closeFile o1)

/-- Exit codes of `nvxio::Application` used at the end of `main`. -/
inductive ExitCode where
  | APP_EXIT_CODE_SUCCESS
  | APP_EXIT_CODE_ERROR
deriving DecidableEq, Repr

/-- Everything observable of lines 452-547: the text sent to `std::cout` (lines 488-490) and to
`std::cerr`, the three files, and the value returned by `main`. -/
structure Shutdown where
  cout : List String
  cerr : List String
  output_valid : Option String
  output_total : Option String
  output_aggrigate : Option String
  exitCode : ExitCode
deriving DecidableEq, Repr

/-- Lines 452-547 for the globals `s` at loop exit and the last cloud.  No statement of the
export inspects a stream state and none throws, so the handler of line 541 is not entered and
`main` returns `APP_EXIT_CODE_SUCCESS`. -/
def shutdown (isPointValid : nvx_point3f_t α → Bool) (fmt : α → String)
    (canOpen : String → Bool) (s : Globals α) (cloud : List (nvx_point3f_t α)) :
    Option Shutdown :=
  match extract isPointValid cloud with
  | none => none
  | some e =>
    let cout : List String :=
      [ "valid points: \t" ++ toString e.valid_point_count ++ "\n",
        "total points: \t" ++ toString e.total_point_count ++ "\n",
        "aggrigate points: \t" ++ toString s.aggrigate_cloud_num ++ "\n" ]
    match writePly fmt canOpen "output_valid.ply" e.valid_point_count e.valid_point_vector with
    | none => none
    | some f1 =>
      match writePly fmt canOpen "output_total.ply" e.total_point_count e.total_point_vector with
      | none => none
      | some f2 =>
        match writePly fmt canOpen "output_aggrigate.ply" s.aggrigate_cloud_num
            s.aggrigate_cloud_vector with
        | none => none
        | some f3 =>
          some { cout := cout, cerr := [], output_valid := f1, output_total := f2,
                 output_aggrigate := f3, exitCode := ExitCode.APP_EXIT_CODE_SUCCESS }

/-- One coordinate line of a PLY file, as the specification words it: the three coordinates
separated by single spaces, then a line break. -/
def plyLine (fmt : α → String) (p : array3 α) : String :=
  fmt p.1 ++ " " ++ fmt p.2.1 ++ " " ++ fmt p.2.2 ++ "\n"

/-- The PLY header of the specification declaring `n` vertices. -/
def plyHeader (n : Int) : String :=
  "ply\nformat ascii 1.0\nelement vertex " ++ toString n ++ "\n"
    ++ "property float x\nproperty float y\nproperty float z\n" ++ "end_header\n"

/-- Concatenation of lines, first line first. -/
def concatLines : List String → String
  | [] => ""
  | l :: ls => l ++ concatLines ls

/-- The PLY text of the specification for a point sequence: the header declaring
`points.length` vertices followed by one line per point, in order. -/
def plySpec (fmt : α → String) (points : List (array3 α)) : String :=
  plyHeader (points.length : Nat) ++ concatLines (points.map (plyLine fmt))

end Write

/-! ## Closed forms of the results of the shutdown -/

/-- The `std::array<float, 3>` holding the coordinates of a point verbatim. -/
def coords {α : Type} (pt : nvx_point3f_t α) : array3 α := (pt.x, pt.y, pt.z)

/-- The locals left by the loop of lines 466-483 when it started with `e`. -/
def afterExtract {α : Type} (isPointValid : nvx_point3f_t α → Bool) (e : Extraction α)
    (cloud : List (nvx_point3f_t α)) : Extraction α :=
  { valid_point_vector := e.valid_point_vector ++ (cloud.filter isPointValid).map coords
    total_point_vector := e.total_point_vector ++ cloud.map coords
    valid_point_count := e.valid_point_count + (cloud.countP isPointValid : Nat)
    total_point_count := e.total_point_count + (cloud.length : Nat) }

/-- The file left on disk by a write of `v` under the counter `count`: nothing when `path`
cannot be created, otherwise the header carrying `count` followed by the lines of `v`. -/
def plyFile {α : Type} (fmt : α → String) (canOpen : String → Bool) (path : String)
    (count : Int) (v : List (array3 α)) : Option String :=
  if canOpen path = true then
    some (plyHeader count ++ concatLines (v.map (plyLine fmt)))
  else none

/-- What lines 488-547 leave for the extraction `e` and the globals `s`. -/
def afterShutdown {α : Type} (fmt : α → String) (canOpen : String → Bool) (s : Globals α)
    (e : Extraction α) : Shutdown :=
  { cout :=
      [ "valid points: \t" ++ toString e.valid_point_count ++ "\n",
        "total points: \t" ++ toString e.total_point_count ++ "\n",
        "aggrigate points: \t" ++ toString s.aggrigate_cloud_num ++ "\n" ]
    cerr := []
    output_valid :=
      plyFile fmt canOpen "output_valid.ply" e.valid_point_count e.valid_point_vector
    output_total :=
      plyFile fmt canOpen "output_total.ply" e.total_point_count e.total_point_vector
    output_aggrigate :=
      plyFile fmt canOpen "output_aggrigate.ply" s.aggrigate_cloud_num
        s.aggrigate_cloud_vector
    exitCode := ExitCode.APP_EXIT_CODE_SUCCESS }

/-! ## Concrete inputs used to exercise the results -/

/-- Sample validity predicate: a point is valid when its `x` is positive. -/
def samplePositive (p : nvx_point3f_t Int) : Bool := decide (0 < p.x)

/-- Sample cloud with two valid points around an invalid one. -/
def sampleCloud : List (nvx_point3f_t Int) := [⟨1, 1, 1⟩, ⟨0, 7, 7⟩, ⟨2, 0, 1⟩]

/-- Sample globals over integer coordinates: one point already aggregated, gate enabled. -/
def sampleGlobals : Globals Int := ⟨[(0, 0, 0)], 1, 0, 50, 1, 10, 5, 2, 3⟩

/-- The globals after one aggregation step from `sampleGlobals` on `sampleCloud`. -/
def sampleAfterStep : Globals Int :=
  ⟨[(0, 0, 0), (16, 2, 3), (17, 0, 3)], 3, 1, 50, 1, 15, 5, 2, 3⟩

/-- The globals after the frames `sampleCloud`, empty, `sampleCloud` from `sampleGlobals`. -/
def sampleAfterRun : Globals Int :=
  ⟨[(0, 0, 0), (16, 2, 3), (17, 0, 3), (26, 2, 3), (27, 0, 3)], 5, 3, 50, 1, 25, 5, 2, 3⟩

/-- Sample globals one frame before the gate: the next advance makes the counter equal to
`frame_max`. -/
def sampleAtGate : Globals Int := ⟨[(0, 0, 0)], 1, 49, 50, 1, 10, 5, 2, 3⟩

/-- The globals after one aggregation step from `sampleAtGate` on `sampleCloud`. -/
def sampleAtGateAfter : Globals Int := ⟨[(0, 0, 0)], 1, 50, 50, 1, 15, 5, 2, 3⟩

/-- Sample globals whose frame counter has reached `frame_max`. -/
def sampleGated : Globals Int := ⟨[(0, 0, 0)], 1, 50, 50, 1, 10, 5, 2, 3⟩

/-- The globals after the frames `sampleCloud`, empty, `sampleCloud` from `sampleGated`. -/
def sampleGatedAfter : Globals Int := ⟨[(0, 0, 0)], 1, 53, 50, 1, 25, 5, 2, 3⟩

/-- Sample globals with the "run all frames" setting `frame_inc = 0`. -/
def sampleOpen : Globals Int := ⟨[(0, 0, 0)], 1, 0, 50, 0, 10, 5, 2, 3⟩

/-- The globals after the frames `sampleCloud`, empty, `sampleCloud` from `sampleOpen`. -/
def sampleOpenAfter : Globals Int :=
  ⟨[(0, 0, 0), (16, 2, 3), (17, 0, 3), (26, 2, 3), (27, 0, 3)], 5, 0, 50, 0, 25, 5, 2, 3⟩

/-- Sample start with `frame_max = 0` and the gate enabled. -/
def sampleZeroGate : Globals Int := ⟨[], 0, 0, 0, 1, 10, 5, 2, 3⟩

/-- The globals after the frames `sampleCloud`, empty, `sampleCloud` from `sampleZeroGate`. -/
def sampleZeroGateAfter : Globals Int := ⟨[], 0, 3, 0, 1, 25, 5, 2, 3⟩

/-- Sample start with `frame_max = 0` and `frame_inc = 0`. -/
def sampleZeroSentinel : Globals Int := ⟨[], 0, 0, 0, 0, 10, 5, 2, 3⟩

/-- Sample start of the program: empty aggregate, counters at zero, gate enabled. -/
def sampleStart : Globals Int := ⟨[], 0, 0, 50, 1, 10, 5, 2, 3⟩

/-- The globals after the single frame `sampleCloud` from `sampleStart`. -/
def sampleStartAfter : Globals Int := ⟨[(16, 2, 3), (17, 0, 3)], 2, 1, 50, 1, 15, 5, 2, 3⟩

/-- The extraction of `sampleCloud` under `samplePositive`. -/
def sampleExtraction : Extraction Int :=
  ⟨[(1, 1, 1), (2, 0, 1)], [(1, 1, 1), (0, 7, 7), (2, 0, 1)], 2, 3⟩

/-- Decimal text of an integer coordinate, standing for `operator<<` in the samples. -/
def showInt (i : Int) : String := toString i

/-- A file system on which `output_total.ply` cannot be created. -/
def sampleCanOpen (path : String) : Bool := path != "output_total.ply"

/-- A file system on which no file can be created. -/
def noneCanOpen (_ : String) : Bool := false

/-- A file system on which every file can be created. -/
def allCanOpen (_ : String) : Bool := true

/-- The text on `std::cout` at shutdown for `sampleStartAfter` and the last cloud
`sampleCloud`. -/
def sampleCout : List String :=
  ["valid points: \t2\n", "total points: \t3\n", "aggrigate points: \t2\n"]

/-- The shutdown of `sampleStartAfter` on `sampleCloud` when only `output_total.ply` cannot be
created. -/
def sampleShutdown : Shutdown :=
  { cout := sampleCout
    cerr := []
    output_valid := some "ply\nformat ascii 1.0\nelement vertex 2\nproperty float x\nproperty float y\nproperty float z\nend_header\n1 1 1\n2 0 1\n"
    output_total := none
    output_aggrigate := some "ply\nformat ascii 1.0\nelement vertex 2\nproperty float x\nproperty float y\nproperty float z\nend_header\n16 2 3\n17 0 3\n"
    exitCode := ExitCode.APP_EXIT_CODE_SUCCESS }

/-- The shutdown of `sampleStartAfter` on `sampleCloud` when no file can be created. -/
def sampleShutdownNoFile : Shutdown :=
  { cout := sampleCout
    cerr := []
    output_valid := none
    output_total := none
    output_aggrigate := none
    exitCode := ExitCode.APP_EXIT_CODE_SUCCESS }

/-- One empty frame, processed before `defaultCloud`. -/
def defaultPre : List (List (nvx_point3f_t ℚ)) := [[]]

/-- A one-point cloud, processed as second frame. -/
def defaultCloud : List (nvx_point3f_t ℚ) := [⟨1, 2, 3⟩]

/-- One frame processed after `defaultCloud`. -/
def defaultPost : List (List (nvx_point3f_t ℚ)) := [[⟨0, 0, 0⟩]]

/-- The globals after the frames empty, `[(1,2,3)]`, `[(0,0,0)]` from the initial `globals`,
every point being valid. -/
def defaultAfterRun : Globals ℚ :=
  { globals with
    aggrigate_cloud_vector := [(2, 2, 3), (3 / 2, 0, 0)], aggrigate_cloud_num := 2,
    n_x := 3 / 2 }

/-- An iteration that fetches a frame and tracks it, after which `sfm` holds `defaultCloud`. -/
def defaultTrackedIteration : Iteration ℚ :=
  { pause := false, fetch := FrameStatus.OK, reopen := true, initCloud := [],
    trackCloud := defaultCloud, flush := true }

/-- An iteration during which `eventData.pause` is set: nothing is fetched or tracked. -/
def defaultPausedIteration : Iteration ℚ :=
  { pause := true, fetch := FrameStatus.OK, reopen := true, initCloud := [],
    trackCloud := [], flush := true }

/-- The globals after `defaultTrackedIteration` from the initial `globals`. -/
def defaultTracked : Globals ℚ :=
  { globals with
    aggrigate_cloud_vector := [(3 / 2, 2, 3)], aggrigate_cloud_num := 1, n_x := 1 / 2 }

/-- The globals after `defaultPausedIteration` from `defaultTracked`, `sfm` still holding
`defaultCloud`. -/
def defaultPausedAfter : Globals ℚ :=
  { globals with
    aggrigate_cloud_vector := [(3 / 2, 2, 3), (2, 2, 3)], aggrigate_cloud_num := 2, n_x := 1 }

/-- A paused iteration over integer coordinates. -/
def samplePausedIteration : Iteration Int :=
  { pause := true, fetch := FrameStatus.OK, reopen := true, initCloud := [],
    trackCloud := [], flush := true }

/-- The globals after `samplePausedIteration` from `sampleStartAfter`, `sfm` still holding
`sampleCloud`. -/
def samplePausedAfter : Globals Int :=
  ⟨[(16, 2, 3), (17, 0, 3), (21, 2, 3), (22, 0, 3)], 4, 2, 50, 1, 20, 5, 2, 3⟩

/-! ## Basic facts about the embedding -/

section AggregationFacts

variable {α : Type} [Add α] [Mul α]

theorem intAdd_eq_some {a b c : Int} :
    intAdd a b = some c ↔ IsInt (a + b) ∧ c = a + b := by
  unfold intAdd IsInt
  split_ifs with h
  · simp [h, eq_comm]
  · simp [h]

theorem intAdd_of_isInt {a b : Int} (h : IsInt (a + b)) : intAdd a b = some (a + b) :=
  intAdd_eq_some.mpr ⟨h, rfl⟩

theorem aggregateLoop_eq_some (isPointValid : nvx_point3f_t α → Bool) :
    ∀ (cloud : List (nvx_point3f_t α)) (s s1 : Globals α),
      aggregateLoop isPointValid s cloud = some s1 → s1 = afterLoop isPointValid s cloud := by
  intro cloud
  induction cloud with
  | nil =>
    intro s s1 h
    simp only [aggregateLoop, Option.some.injEq] at h
    simp [afterLoop, ← h]
  | cons pt rest ih =>
    intro s s1 h
    unfold aggregateLoop at h
    cases hp : aggregatePoint isPointValid s pt with
    | none => simp [hp] at h
    | some s2 =>
      simp only [hp] at h
      have h2 := ih s2 s1 h
      unfold aggregatePoint at hp
      by_cases hv : isPointValid pt = true
      · simp only [hv, if_true] at hp
        cases hn : intAdd s.aggrigate_cloud_num 1 with
        | none => simp [hn] at hp
        | some n =>
          have hn2 := (intAdd_eq_some.mp hn).2
          simp only [hn, Option.bind_eq_bind, Option.some_bind, Option.pure_def,
            Option.some.injEq] at hp
          subst hp
          subst hn2
          rw [h2]
          simp [afterLoop, hv, shifted, List.countP_cons, add_assoc, add_comm]
      · simp only [hv] at hp
        simp only [Bool.false_eq_true, if_false, Option.pure_def, Option.some.injEq] at hp
        subst hp
        rw [h2]
        simp [afterLoop, hv, List.countP_cons]

theorem aggregateLoop_defined (isPointValid : nvx_point3f_t α → Bool) :
    ∀ (cloud : List (nvx_point3f_t α)) (s : Globals α),
      INT_MIN ≤ s.aggrigate_cloud_num →
      s.aggrigate_cloud_num + (cloud.countP isPointValid : Nat) ≤ INT_MAX →
      aggregateLoop isPointValid s cloud = some (afterLoop isPointValid s cloud) := by
  intro cloud
  induction cloud with
  | nil =>
    intro s _ _
    simp [aggregateLoop, afterLoop]
  | cons pt rest ih =>
    intro s hlo hhi
    unfold aggregateLoop
    by_cases hv : isPointValid pt = true
    · have hc : (pt :: rest).countP isPointValid = rest.countP isPointValid + 1 := by
        simp [List.countP_cons, hv]
      rw [hc] at hhi
      push_cast at hhi
      have hr : IsInt (s.aggrigate_cloud_num + 1) := by
        constructor
        · linarith
        · have : (0 : Int) ≤ (rest.countP isPointValid : Nat) := Int.natCast_nonneg _
          linarith
      have hp : aggregatePoint isPointValid s pt = some
          { s with
            aggrigate_cloud_num := s.aggrigate_cloud_num + 1
            aggrigate_cloud_vector :=
              s.aggrigate_cloud_vector ++ [(pt.x + s.n_x, pt.y * s.n_y, pt.z * s.n_z)] } := by
        simp [aggregatePoint, hv, intAdd_of_isInt hr]
      rw [hp]
      simp only
      rw [ih _ (by simp only; linarith) (by simp only; linarith)]
      simp [afterLoop, hv, shifted, List.countP_cons, add_assoc, add_comm]
    · have hp : aggregatePoint isPointValid s pt = some s := by
        simp [aggregatePoint, hv]
      have hc : (pt :: rest).countP isPointValid = rest.countP isPointValid := by
        simp [List.countP_cons, hv]
      rw [hc] at hhi
      rw [hp]
      simp only
      rw [ih s hlo hhi]
      simp [afterLoop, hv, List.countP_cons]

theorem aggregateLoop_isInt (isPointValid : nvx_point3f_t α → Bool) :
    ∀ (cloud : List (nvx_point3f_t α)) (s s1 : Globals α),
      aggregateLoop isPointValid s cloud = some s1 → IsInt s.aggrigate_cloud_num →
        IsInt s1.aggrigate_cloud_num := by
  intro cloud
  induction cloud with
  | nil =>
    intro s s1 h hs
    simp only [aggregateLoop, Option.some.injEq] at h
    rw [← h]
    exact hs
  | cons pt rest ih =>
    intro s s1 h hs
    unfold aggregateLoop at h
    cases hp : aggregatePoint isPointValid s pt with
    | none => simp [hp] at h
    | some s2 =>
      simp only [hp] at h
      refine ih s2 s1 h ?_
      unfold aggregatePoint at hp
      by_cases hv : isPointValid pt = true
      · simp only [hv, if_true] at hp
        cases hn : intAdd s.aggrigate_cloud_num 1 with
        | none => simp [hn] at hp
        | some n =>
          obtain ⟨hr, hn2⟩ := intAdd_eq_some.mp hn
          simp only [hn, Option.bind_eq_bind, Option.some_bind, Option.pure_def,
            Option.some.injEq] at hp
          rw [← hp, hn2]
          exact hr
      · simp only [hv] at hp
        simp only [Bool.false_eq_true, if_false, Option.pure_def, Option.some.injEq] at hp
        rw [← hp]
        exact hs

end AggregationFacts

section StepFacts

variable {α : Type} [Add α] [Mul α]

theorem frameStep_eq_some (isPointValid : nvx_point3f_t α → Bool) (s s1 : Globals α)
    (cloud : List (nvx_point3f_t α)) (h : frameStep isPointValid s cloud = some s1) :
    IsInt (s.frame_num + s.frame_inc) ∧ s1 = afterStep isPointValid s cloud := by
  unfold frameStep at h
  cases hn : intAdd s.frame_num s.frame_inc with
  | none => simp [hn] at h
  | some fn =>
    obtain ⟨hr, hfn⟩ := intAdd_eq_some.mp hn
    subst hfn
    refine ⟨hr, ?_⟩
    simp only [hn] at h
    unfold afterStep
    by_cases hg : s.frame_num + s.frame_inc < s.frame_max
    · simp only [hg, if_true] at h ⊢
      by_cases hl : cloud.length > 0
      · simp only [hl, if_true] at h
        exact aggregateLoop_eq_some isPointValid cloud _ _ h
      · have hnil : cloud = [] := by
          cases cloud with
          | nil => rfl
          | cons a l => simp at hl
        subst hnil
        simp only [List.length_nil, gt_iff_lt, lt_self_iff_false, if_false,
          Option.some.injEq] at h
        simp [afterLoop, ← h]
    · simp only [hg, if_false, Option.some.injEq] at h ⊢
      exact h.symm

theorem frameStep_defined (isPointValid : nvx_point3f_t α → Bool) (s : Globals α)
    (cloud : List (nvx_point3f_t α)) (hfn : IsInt (s.frame_num + s.frame_inc))
    (hroom : s.frame_num + s.frame_inc < s.frame_max →
      INT_MIN ≤ s.aggrigate_cloud_num ∧
        s.aggrigate_cloud_num + (cloud.countP isPointValid : Nat) ≤ INT_MAX) :
    frameStep isPointValid s cloud = some (afterStep isPointValid s cloud) := by
  unfold frameStep afterStep
  rw [intAdd_of_isInt hfn]
  by_cases hg : s.frame_num + s.frame_inc < s.frame_max
  · obtain ⟨hlo, hhi⟩ := hroom hg
    simp only [hg, if_true]
    by_cases hl : cloud.length > 0
    · simp only [hl, if_true]
      exact aggregateLoop_defined isPointValid cloud _ hlo hhi
    · have hnil : cloud = [] := by
        cases cloud with
        | nil => rfl
        | cons a l => simp at hl
      subst hnil
      simp [afterLoop]
  · simp only [hg, if_false]

theorem frameStep_isInt (isPointValid : nvx_point3f_t α → Bool) (s s1 : Globals α)
    (cloud : List (nvx_point3f_t α)) (h : frameStep isPointValid s cloud = some s1)
    (hs : IsInt s.aggrigate_cloud_num) : IsInt s1.aggrigate_cloud_num := by
  unfold frameStep at h
  cases hn : intAdd s.frame_num s.frame_inc with
  | none => simp [hn] at h
  | some fn =>
    simp only [hn] at h
    split_ifs at h with hg hl
    · exact aggregateLoop_isInt isPointValid cloud _ s1 h hs
    · simp only [Option.some.injEq] at h
      rw [← h]
      exact hs
    · simp only [Option.some.injEq] at h
      rw [← h]
      exact hs

theorem afterLoop_config (isPointValid : nvx_point3f_t α → Bool) (s : Globals α)
    (cloud : List (nvx_point3f_t α)) :
    (afterLoop isPointValid s cloud).frame_num = s.frame_num ∧
    (afterLoop isPointValid s cloud).frame_max = s.frame_max ∧
    (afterLoop isPointValid s cloud).frame_inc = s.frame_inc ∧
    (afterLoop isPointValid s cloud).n_x = s.n_x ∧
    (afterLoop isPointValid s cloud).inc = s.inc ∧
    (afterLoop isPointValid s cloud).n_y = s.n_y ∧
    (afterLoop isPointValid s cloud).n_z = s.n_z := by
  simp [afterLoop]

theorem afterStep_config (isPointValid : nvx_point3f_t α → Bool) (s : Globals α)
    (cloud : List (nvx_point3f_t α)) :
    (afterStep isPointValid s cloud).frame_num = s.frame_num + s.frame_inc ∧
    (afterStep isPointValid s cloud).frame_max = s.frame_max ∧
    (afterStep isPointValid s cloud).frame_inc = s.frame_inc ∧
    (afterStep isPointValid s cloud).n_x = s.n_x + s.inc ∧
    (afterStep isPointValid s cloud).inc = s.inc ∧
    (afterStep isPointValid s cloud).n_y = s.n_y ∧
    (afterStep isPointValid s cloud).n_z = s.n_z := by
  unfold afterStep
  by_cases hg : s.frame_num + s.frame_inc < s.frame_max
  · simp [hg, afterLoop]
  · simp [hg]

theorem afterStep_vector (isPointValid : nvx_point3f_t α → Bool) (s : Globals α)
    (cloud : List (nvx_point3f_t α)) :
    (afterStep isPointValid s cloud).aggrigate_cloud_vector =
      if s.frame_num + s.frame_inc < s.frame_max then
        s.aggrigate_cloud_vector
          ++ (cloud.filter isPointValid).map (shifted (s.n_x + s.inc) s.n_y s.n_z)
      else s.aggrigate_cloud_vector := by
  unfold afterStep
  by_cases hg : s.frame_num + s.frame_inc < s.frame_max
  · simp [hg, afterLoop]
  · simp [hg]

theorem afterStep_num (isPointValid : nvx_point3f_t α → Bool) (s : Globals α)
    (cloud : List (nvx_point3f_t α)) :
    (afterStep isPointValid s cloud).aggrigate_cloud_num =
      if s.frame_num + s.frame_inc < s.frame_max then
        s.aggrigate_cloud_num + (cloud.countP isPointValid : Nat)
      else s.aggrigate_cloud_num := by
  unfold afterStep
  by_cases hg : s.frame_num + s.frame_inc < s.frame_max
  · simp [hg, afterLoop]
  · simp [hg]

end StepFacts

section RunFacts

variable {α : Type} [Add α] [Mul α]

theorem runFrames_cons_some (isPointValid : nvx_point3f_t α → Bool) (s s2 : Globals α)
    (cloud : List (nvx_point3f_t α)) (rest : List (List (nvx_point3f_t α)))
    (h : runFrames isPointValid s (cloud :: rest) = some s2) :
    frameStep isPointValid s cloud = some (afterStep isPointValid s cloud) ∧
      runFrames isPointValid (afterStep isPointValid s cloud) rest = some s2 := by
  unfold runFrames at h
  cases hs : frameStep isPointValid s cloud with
  | none => simp [hs] at h
  | some s1 =>
    simp only [hs] at h
    have h1 := (frameStep_eq_some isPointValid s s1 cloud hs).2
    subst h1
    exact ⟨rfl, h⟩

theorem runFrames_append (isPointValid : nvx_point3f_t α → Bool) :
    ∀ (pre post : List (List (nvx_point3f_t α))) (s : Globals α),
      runFrames isPointValid s (pre ++ post) =
        match runFrames isPointValid s pre with
        | none => none
        | some s1 => runFrames isPointValid s1 post := by
  intro pre
  induction pre with
  | nil => intro post s; simp [runFrames]
  | cons c rest ih =>
    intro post s
    simp only [List.cons_append, runFrames]
    cases hs : frameStep isPointValid s c with
    | none => simp
    | some s1 => simp [ih]

/-- Along a defined run the aggregate is only extended, the settings are untouched, and the
counter has advanced by `frame_inc` per frame. -/
theorem runFrames_invariants (isPointValid : nvx_point3f_t α → Bool) :
    ∀ (frames : List (List (nvx_point3f_t α))) (s s1 : Globals α),
      runFrames isPointValid s frames = some s1 →
        s.aggrigate_cloud_vector <+: s1.aggrigate_cloud_vector ∧
        s1.frame_max = s.frame_max ∧ s1.frame_inc = s.frame_inc ∧
        s1.inc = s.inc ∧ s1.n_y = s.n_y ∧ s1.n_z = s.n_z ∧
        s1.frame_num = s.frame_num + (frames.length : Nat) * s.frame_inc := by
  intro frames
  induction frames with
  | nil =>
    intro s s1 h
    simp only [runFrames, Option.some.injEq] at h
    subst h
    simp
  | cons c rest ih =>
    intro s s1 h
    obtain ⟨_, h2⟩ := runFrames_cons_some isPointValid s s1 c rest h
    obtain ⟨hp, hmax, hinc, hi, hy, hz, hnum⟩ := ih _ _ h2
    obtain ⟨cfn, cmax, cinc, _, ci, cy, cz⟩ := afterStep_config isPointValid s c
    refine ⟨?_, by rw [hmax, cmax], by rw [hinc, cinc], by rw [hi, ci], by rw [hy, cy],
      by rw [hz, cz], ?_⟩
    · refine List.IsPrefix.trans ?_ hp
      rw [afterStep_vector]
      split_ifs
      · exact List.prefix_append _ _
      · exact List.prefix_refl _
    · rw [hnum, cfn, cinc]
      simp only [List.length_cons]
      push_cast
      ring

/-- Along a defined run, `aggrigate_cloud_num` and the length of the aggregate grow by the same
amount, and the counter stays an `int`. -/
theorem runFrames_counter (isPointValid : nvx_point3f_t α → Bool) :
    ∀ (frames : List (List (nvx_point3f_t α))) (s s1 : Globals α),
      runFrames isPointValid s frames = some s1 →
        s1.aggrigate_cloud_num + (s.aggrigate_cloud_vector.length : Nat) =
          s.aggrigate_cloud_num + (s1.aggrigate_cloud_vector.length : Nat) ∧
        (IsInt s.aggrigate_cloud_num → IsInt s1.aggrigate_cloud_num) := by
  intro frames
  induction frames with
  | nil =>
    intro s s1 h
    simp only [runFrames, Option.some.injEq] at h
    subst h
    exact ⟨rfl, id⟩
  | cons c rest ih =>
    intro s s1 h
    obtain ⟨h1, h2⟩ := runFrames_cons_some isPointValid s s1 c rest h
    obtain ⟨hc, hi⟩ := ih _ _ h2
    refine ⟨?_, fun hs => hi (frameStep_isInt isPointValid s _ c h1 hs)⟩
    rw [afterStep_num, afterStep_vector] at hc
    split_ifs at hc with hg
    · simp only [List.length_append, List.length_map, ← List.countP_eq_length_filter] at hc
      push_cast at hc
      linarith
    · exact hc

/-- A run has a result as soon as the frame counter stays an `int` up to its last value and
the point counter has room for every valid point of the frames. -/
theorem runFrames_defined (isPointValid : nvx_point3f_t α → Bool) :
    ∀ (frames : List (List (nvx_point3f_t α))) (s : Globals α),
      IsInt s.frame_num → IsInt (s.frame_num + (frames.length : Nat) * s.frame_inc) →
      INT_MIN ≤ s.aggrigate_cloud_num →
      s.aggrigate_cloud_num + (validCount isPointValid frames : Nat) ≤ INT_MAX →
      (runFrames isPointValid s frames).isSome = true := by
  intro frames
  induction frames with
  | nil =>
    intro s _ _ _ _
    rfl
  | cons c rest ih =>
    intro s hfn hend hlo hhi
    simp only [List.length_cons] at hend
    simp only [validCount] at hhi
    push_cast at hend hhi
    have hl : (0 : Int) ≤ (rest.length : Nat) := Int.natCast_nonneg _
    have hcnt : (0 : Int) ≤ (c.countP isPointValid : Nat) := Int.natCast_nonneg _
    have hvc : (0 : Int) ≤ (validCount isPointValid rest : Nat) := Int.natCast_nonneg _
    have hstepInt : IsInt (s.frame_num + s.frame_inc) := by
      obtain ⟨h1, h2⟩ := hfn
      obtain ⟨h3, h4⟩ := hend
      by_cases hpos : 0 ≤ s.frame_inc
      · have : 0 ≤ (rest.length : Int) * s.frame_inc := mul_nonneg hl hpos
        exact ⟨by linarith, by linarith⟩
      · have hneg : s.frame_inc ≤ 0 := le_of_lt (not_le.mp hpos)
        have : (rest.length : Int) * s.frame_inc ≤ 0 := mul_nonpos_of_nonneg_of_nonpos hl hneg
        exact ⟨by linarith, by linarith⟩
    have hstep := frameStep_defined isPointValid s c hstepInt
      (fun _ => ⟨hlo, by linarith⟩)
    simp only [runFrames, hstep]
    obtain ⟨cfn, _, cinc, _, _, _, _⟩ := afterStep_config isPointValid s c
    have hnum := afterStep_num isPointValid s c
    refine ih _ (by rw [cfn]; exact hstepInt) ?_ ?_ ?_
    · rw [cfn, cinc]
      have : s.frame_num + s.frame_inc + (rest.length : Int) * s.frame_inc
          = s.frame_num + ((rest.length : Int) + 1) * s.frame_inc := by ring
      rw [this]
      exact hend
    · rw [hnum]
      split_ifs <;> linarith
    · rw [hnum]
      split_ifs <;> linarith

/-- With `frame_inc = 0` and the counter below `frame_max`, every frame of a run contributes
all of its valid points and the counter does not move. -/
theorem runFrames_all_contribute (isPointValid : nvx_point3f_t α → Bool) :
    ∀ (frames : List (List (nvx_point3f_t α))) (s s1 : Globals α),
      s.frame_inc = 0 → s.frame_num < s.frame_max →
      runFrames isPointValid s frames = some s1 →
        s1.frame_num = s.frame_num ∧
        s1.aggrigate_cloud_vector =
          s.aggrigate_cloud_vector ++
            allContributions isPointValid s.inc s.n_y s.n_z s.n_x frames := by
  intro frames
  induction frames with
  | nil =>
    intro s s1 _ _ h
    simp only [runFrames, Option.some.injEq] at h
    subst h
    simp [allContributions]
  | cons c rest ih =>
    intro s s1 hinc hlt h
    obtain ⟨_, h2⟩ := runFrames_cons_some isPointValid s s1 c rest h
    obtain ⟨cfn, cmax, cinc, cnx, ci, cy, cz⟩ := afterStep_config isPointValid s c
    have hg : s.frame_num + s.frame_inc < s.frame_max := by rw [hinc]; simpa using hlt
    obtain ⟨hf, hv⟩ := ih _ s1 (by rw [cinc]; exact hinc) (by rw [cfn, cmax]; exact hg) h2
    refine ⟨by rw [hf, cfn, hinc, add_zero], ?_⟩
    rw [hv, afterStep_vector, if_pos hg, cnx, ci, cy, cz]
    simp [allContributions, List.append_assoc]

/-- With a non-negative `frame_inc`, once the counter is at or above `frame_max` no frame of a
run changes the aggregate. -/
theorem runFrames_gate_closed (isPointValid : nvx_point3f_t α → Bool) :
    ∀ (frames : List (List (nvx_point3f_t α))) (s s1 : Globals α),
      0 ≤ s.frame_inc → s.frame_max ≤ s.frame_num →
      runFrames isPointValid s frames = some s1 →
        s1.aggrigate_cloud_vector = s.aggrigate_cloud_vector := by
  intro frames
  induction frames with
  | nil =>
    intro s s1 _ _ h
    simp only [runFrames, Option.some.injEq] at h
    subst h
    rfl
  | cons c rest ih =>
    intro s s1 hinc hge h
    obtain ⟨_, h2⟩ := runFrames_cons_some isPointValid s s1 c rest h
    obtain ⟨cfn, cmax, cinc, _, _, _, _⟩ := afterStep_config isPointValid s c
    have hg : ¬ s.frame_num + s.frame_inc < s.frame_max := by linarith
    rw [ih _ s1 (by rw [cinc]; exact hinc) (by rw [cfn, cmax]; linarith) h2,
      afterStep_vector, if_neg hg]

/-- With `frame_inc = 1` and the counter at or above `frame_max`, a run has a result for as
many frames as keep the counter an `int`, whatever the clouds. -/
theorem runFrames_gate_closed_defined (isPointValid : nvx_point3f_t α → Bool) :
    ∀ (frames : List (List (nvx_point3f_t α))) (s : Globals α),
      s.frame_inc = 1 → s.frame_max ≤ s.frame_num → IsInt s.frame_num →
      s.frame_num + (frames.length : Nat) ≤ INT_MAX →
      (runFrames isPointValid s frames).isSome = true := by
  intro frames
  induction frames with
  | nil =>
    intro s _ _ _ _
    rfl
  | cons c rest ih =>
    intro s hinc hmax hint hlen
    simp only [List.length_cons] at hlen
    push_cast at hlen
    have hnn : (0 : Int) ≤ (rest.length : Nat) := Int.natCast_nonneg _
    have hg : ¬ s.frame_num + s.frame_inc < s.frame_max := by
      rw [hinc]
      linarith
    have hfn : IsInt (s.frame_num + s.frame_inc) := by
      rw [hinc]
      exact ⟨by linarith [hint.1], by linarith⟩
    have hstep := frameStep_defined isPointValid s c hfn (fun hlt => absurd hlt hg)
    obtain ⟨cfn, cmax, cinc, _, _, _, _⟩ := afterStep_config isPointValid s c
    simp only [runFrames, hstep]
    exact ih (afterStep isPointValid s c)
      (by rw [cinc]; exact hinc)
      (by rw [cmax, cfn, hinc]; linarith)
      (by rw [cfn]; exact hfn)
      (by rw [cfn, hinc]; linarith)

end RunFacts

/-- Over the rationals the offset after a run is the initial offset plus `inc` per frame. -/
theorem runFrames_offset (isPointValid : nvx_point3f_t ℚ → Bool) :
    ∀ (frames : List (List (nvx_point3f_t ℚ))) (s s1 : Globals ℚ),
      runFrames isPointValid s frames = some s1 →
        s1.n_x = s.n_x + (frames.length : ℚ) * s.inc := by
  intro frames
  induction frames with
  | nil =>
    intro s s1 h
    simp only [runFrames, Option.some.injEq] at h
    subst h
    simp
  | cons c rest ih =>
    intro s s1 h
    obtain ⟨_, h2⟩ := runFrames_cons_some isPointValid s s1 c rest h
    obtain ⟨_, _, _, cnx, ci, _, _⟩ := afterStep_config isPointValid s c
    rw [ih _ s1 h2, cnx, ci]
    simp only [List.length_cons]
    push_cast
    ring

section ExtractFacts

variable {α : Type}

theorem extractLoop_eq_some (isPointValid : nvx_point3f_t α → Bool) :
    ∀ (cloud : List (nvx_point3f_t α)) (e e1 : Extraction α),
      extractLoop isPointValid e cloud = some e1 → e1 = afterExtract isPointValid e cloud := by
  intro cloud
  induction cloud with
  | nil =>
    intro e e1 h
    simp only [extractLoop, Option.some.injEq] at h
    simp [afterExtract, ← h]
  | cons pt rest ih =>
    intro e e1 h
    unfold extractLoop at h
    cases hp : extractPoint isPointValid e pt with
    | none => simp [hp] at h
    | some e2 =>
      simp only [hp] at h
      have h2 := ih e2 e1 h
      unfold extractPoint at hp
      by_cases hv : isPointValid pt = true
      · simp only [hv, if_true] at hp
        cases hn : intAdd e.valid_point_count 1 with
        | none => simp [hn] at hp
        | some n =>
          have hn2 := (intAdd_eq_some.mp hn).2
          simp only [hn] at hp
          cases hm : intAdd e.total_point_count 1 with
          | none => simp [hm] at hp
          | some m =>
            have hm2 := (intAdd_eq_some.mp hm).2
            simp only [hm, Option.some.injEq] at hp
            subst hp hn2 hm2
            rw [h2]
            simp [afterExtract, hv, coords, List.countP_cons, add_assoc, add_comm]
      · simp only [hv] at hp
        simp only [Bool.false_eq_true, if_false] at hp
        cases hm : intAdd e.total_point_count 1 with
        | none => simp [hm] at hp
        | some m =>
          have hm2 := (intAdd_eq_some.mp hm).2
          simp only [hm, Option.some.injEq] at hp
          subst hp hm2
          rw [h2]
          simp [afterExtract, hv, coords, List.countP_cons, add_assoc, add_comm]

theorem extractLoop_defined (isPointValid : nvx_point3f_t α → Bool) :
    ∀ (cloud : List (nvx_point3f_t α)) (e : Extraction α),
      0 ≤ e.valid_point_count → e.valid_point_count ≤ e.total_point_count →
      e.total_point_count + (cloud.length : Nat) ≤ INT_MAX →
      extractLoop isPointValid e cloud = some (afterExtract isPointValid e cloud) := by
  intro cloud
  induction cloud with
  | nil =>
    intro e _ _ _
    simp [extractLoop, afterExtract]
  | cons pt rest ih =>
    intro e h0 hle hhi
    simp only [List.length_cons] at hhi
    push_cast at hhi
    have hnn : (0 : Int) ≤ (rest.length : Nat) := Int.natCast_nonneg _
    have hmin : INT_MIN ≤ 0 := by decide
    have ht : IsInt (e.total_point_count + 1) := ⟨by linarith, by linarith⟩
    have hvr : IsInt (e.valid_point_count + 1) := ⟨by linarith, by linarith⟩
    unfold extractLoop
    by_cases hv : isPointValid pt = true
    · have hp : extractPoint isPointValid e pt = some
          { valid_point_vector := e.valid_point_vector ++ [(pt.x, pt.y, pt.z)]
            total_point_vector := e.total_point_vector ++ [(pt.x, pt.y, pt.z)]
            valid_point_count := e.valid_point_count + 1
            total_point_count := e.total_point_count + 1 } := by
        simp [extractPoint, hv, intAdd_of_isInt hvr, intAdd_of_isInt ht]
      rw [hp]
      simp only
      rw [ih _ (by simp only; linarith) (by simp only; linarith) (by simp only; linarith)]
      simp [afterExtract, hv, coords, List.countP_cons, add_assoc, add_comm]
    · have hp : extractPoint isPointValid e pt = some
          { e with
            total_point_vector := e.total_point_vector ++ [(pt.x, pt.y, pt.z)]
            total_point_count := e.total_point_count + 1 } := by
        simp [extractPoint, hv, intAdd_of_isInt ht]
      rw [hp]
      simp only
      rw [ih _ (by simp only; linarith) (by simp only; linarith) (by simp only; linarith)]
      simp [afterExtract, hv, coords, List.countP_cons, add_assoc, add_comm]

/-- The result of the extraction, whenever it has one. -/
theorem extract_eq_some (isPointValid : nvx_point3f_t α → Bool)
    (cloud : List (nvx_point3f_t α)) (e : Extraction α)
    (h : extract isPointValid cloud = some e) :
    e = { valid_point_vector := (cloud.filter isPointValid).map coords
          total_point_vector := cloud.map coords
          valid_point_count := (cloud.countP isPointValid : Nat)
          total_point_count := (cloud.length : Nat) } := by
  unfold extract at h
  by_cases hl : cloud.length > 0
  · simp only [hl, if_true] at h
    rw [extractLoop_eq_some isPointValid cloud _ _ h]
    simp [afterExtract]
  · have hnil : cloud = [] := by
      cases cloud with
      | nil => rfl
      | cons a l => simp at hl
    subst hnil
    simp only [List.length_nil, gt_iff_lt, lt_self_iff_false, if_false,
      Option.some.injEq] at h
    simp [← h]

/-- The extraction has a result as soon as the number of items fits in an `int`. -/
theorem extract_defined (isPointValid : nvx_point3f_t α → Bool)
    (cloud : List (nvx_point3f_t α)) (h : ((cloud.length : Nat) : Int) ≤ INT_MAX) :
    extract isPointValid cloud =
      some { valid_point_vector := (cloud.filter isPointValid).map coords
             total_point_vector := cloud.map coords
             valid_point_count := (cloud.countP isPointValid : Nat)
             total_point_count := (cloud.length : Nat) } := by
  unfold extract
  by_cases hl : cloud.length > 0
  · simp only [hl, if_true]
    rw [extractLoop_defined isPointValid cloud _ (le_refl _) (le_refl _)
      (by simpa using h)]
    simp [afterExtract]
  · have hnil : cloud = [] := by
      cases cloud with
      | nil => rfl
      | cons a l => simp at hl
    subst hnil
    simp

end ExtractFacts

theorem put_put (o : ofstream) (a b : String) : put (put o a) b = put o (a ++ b) := by
  unfold put
  cases ho : o.is_open <;> cases hf : o.failbit <;> simp [ho, hf, String.append_assoc]

theorem put_empty (o : ofstream) : put o "" = o := by
  obtain ⟨op, fb, t⟩ := o
  cases op <;> cases fb <;> simp [put, String.append_empty]

section WriteFacts

variable {α : Type}

theorem writePoints_eq_some (fmt : α → String) :
    ∀ (v : List (array3 α)) (i : Int) (o o1 : ofstream),
      writePoints fmt i o v = some o1 →
        o1 = put o (concatLines (v.map (plyLine fmt))) := by
  intro v
  induction v with
  | nil =>
    intro i o o1 h
    simp only [writePoints, Option.some.injEq] at h
    simp [concatLines, put_empty, ← h]
  | cons p rest ih =>
    intro i o o1 h
    unfold writePoints at h
    cases hn : intAdd i 1 with
    | none => simp [hn] at h
    | some i1 =>
      simp only [hn] at h
      rw [ih i1 _ o1 h]
      simp only [put_put, List.map_cons, concatLines, plyLine, String.append_assoc]

theorem writePoints_defined (fmt : α → String) :
    ∀ (v : List (array3 α)) (i : Int) (o : ofstream),
      INT_MIN ≤ i → i + (v.length : Nat) ≤ INT_MAX →
        writePoints fmt i o v = some (put o (concatLines (v.map (plyLine fmt)))) := by
  intro v
  induction v with
  | nil =>
    intro i o _ _
    simp [writePoints, concatLines, put_empty]
  | cons p rest ih =>
    intro i o hlo hhi
    simp only [List.length_cons] at hhi
    push_cast at hhi
    have hnn : (0 : Int) ≤ (rest.length : Nat) := Int.natCast_nonneg _
    have hi : IsInt (i + 1) := ⟨by linarith, by linarith⟩
    unfold writePoints
    simp only [intAdd_of_isInt hi]
    rw [ih (i + 1) _ (by linarith) (by linarith)]
    simp only [put_put, List.map_cons, concatLines, plyLine, String.append_assoc]

/-- Whether the point loop has a result depends on the index and the vector only, not on the
stream. -/
theorem writePoints_transfer (fmt : α → String) :
    ∀ (v : List (array3 α)) (i : Int) (o o1 o2 : ofstream),
      writePoints fmt i o v = some o1 →
        writePoints fmt i o2 v = some (put o2 (concatLines (v.map (plyLine fmt)))) := by
  intro v
  induction v with
  | nil =>
    intro i o o1 o2 _
    simp [writePoints, concatLines, put_empty]
  | cons p rest ih =>
    intro i o o1 o2 h
    unfold writePoints at h ⊢
    cases hn : intAdd i 1 with
    | none => simp [hn] at h
    | some i1 =>
      simp only [hn] at h ⊢
      rw [ih i1 _ o1 _ h]
      simp only [put_put, List.map_cons, concatLines, plyLine, String.append_assoc]

/-- The file left by a PLY write whose point loop has run. -/
theorem writePly_text (fmt : α → String) (canOpen : String → Bool) (path : String)
    (count : Int) (v : List (array3 α)) :
    closeFile (put (writeHeader (openFile canOpen path) count)
        (concatLines (v.map (plyLine fmt)))) =
      if canOpen path = true then
        some (plyHeader count ++ concatLines (v.map (plyLine fmt)))
      else none := by
  cases hc : canOpen path
  · simp [writeHeader, openFile, hc, put, closeFile]
  · simp [writeHeader, openFile, hc, put, closeFile, plyHeader, String.append_assoc]

theorem writePly_eq_some (fmt : α → String) (canOpen : String → Bool) (path : String)
    (count : Int) (v : List (array3 α)) (f : Option String)
    (h : writePly fmt canOpen path count v = some f) :
    f = if canOpen path = true then
          some (plyHeader count ++ concatLines (v.map (plyLine fmt)))
        else none := by
  unfold writePly at h
  cases hw : writePoints fmt 0 (writeHeader (openFile canOpen path) count) v with
  | none => simp [hw] at h
  | some o1 =>
    simp only [hw, Option.some.injEq] at h
    rw [← h, writePoints_eq_some fmt v 0 _ o1 hw]
    exact writePly_text fmt canOpen path count v

theorem writePly_defined (fmt : α → String) (canOpen : String → Bool) (path : String)
    (count : Int) (v : List (array3 α)) (h : ((v.length : Nat) : Int) ≤ INT_MAX) :
    writePly fmt canOpen path count v =
      some (if canOpen path = true then
          some (plyHeader count ++ concatLines (v.map (plyLine fmt)))
        else none) := by
  unfold writePly
  rw [writePoints_defined fmt v 0 _ (by decide) (by simpa using h)]
  simp only [Option.some.injEq]
  exact writePly_text fmt canOpen path count v

theorem writePly_transfer (fmt : α → String) (canOpen canOpen2 : String → Bool)
    (path : String) (count : Int) (v : List (array3 α)) (f : Option String)
    (h : writePly fmt canOpen path count v = some f) :
    writePly fmt canOpen2 path count v =
      some (if canOpen2 path = true then
          some (plyHeader count ++ concatLines (v.map (plyLine fmt)))
        else none) := by
  unfold writePly at h ⊢
  cases hw : writePoints fmt 0 (writeHeader (openFile canOpen path) count) v with
  | none => simp [hw] at h
  | some o1 =>
    rw [writePoints_transfer fmt v 0 _ o1 _ hw]
    simp only [Option.some.injEq]
    exact writePly_text fmt canOpen2 path count v

end WriteFacts

section ShutdownFacts

variable {α : Type}

theorem shutdown_eq_some (isPointValid : nvx_point3f_t α → Bool) (fmt : α → String)
    (canOpen : String → Bool) (s : Globals α) (cloud : List (nvx_point3f_t α))
    (r : Shutdown) (h : shutdown isPointValid fmt canOpen s cloud = some r) :
    ∃ e, extract isPointValid cloud = some e ∧ r = afterShutdown fmt canOpen s e := by
  unfold shutdown at h
  cases he : extract isPointValid cloud with
  | none => simp [he] at h
  | some e =>
    refine ⟨e, rfl, ?_⟩
    simp only [he] at h
    cases h1 : writePly fmt canOpen "output_valid.ply" e.valid_point_count
        e.valid_point_vector with
    | none => simp [h1] at h
    | some f1 =>
      simp only [h1] at h
      cases h2 : writePly fmt canOpen "output_total.ply" e.total_point_count
          e.total_point_vector with
      | none => simp [h2] at h
      | some f2 =>
        simp only [h2] at h
        cases h3 : writePly fmt canOpen "output_aggrigate.ply" s.aggrigate_cloud_num
            s.aggrigate_cloud_vector with
        | none => simp [h3] at h
        | some f3 =>
          simp only [h3, Option.some.injEq] at h
          rw [← h, writePly_eq_some fmt canOpen _ _ _ f1 h1,
            writePly_eq_some fmt canOpen _ _ _ f2 h2, writePly_eq_some fmt canOpen _ _ _ f3 h3]
          rfl

theorem shutdown_defined (isPointValid : nvx_point3f_t α → Bool) (fmt : α → String)
    (canOpen : String → Bool) (s : Globals α) (cloud : List (nvx_point3f_t α))
    (e : Extraction α) (he : extract isPointValid cloud = some e)
    (hv : ((e.valid_point_vector.length : Nat) : Int) ≤ INT_MAX)
    (ht : ((e.total_point_vector.length : Nat) : Int) ≤ INT_MAX)
    (ha : ((s.aggrigate_cloud_vector.length : Nat) : Int) ≤ INT_MAX) :
    shutdown isPointValid fmt canOpen s cloud = some (afterShutdown fmt canOpen s e) := by
  unfold shutdown
  simp only [he]
  rw [writePly_defined fmt canOpen _ _ _ hv, writePly_defined fmt canOpen _ _ _ ht,
    writePly_defined fmt canOpen _ _ _ ha]
  rfl

theorem shutdown_transfer (isPointValid : nvx_point3f_t α → Bool) (fmt : α → String)
    (canOpen canOpen2 : String → Bool) (s : Globals α) (cloud : List (nvx_point3f_t α))
    (r : Shutdown) (h : shutdown isPointValid fmt canOpen s cloud = some r) :
    ∃ e, extract isPointValid cloud = some e ∧ r = afterShutdown fmt canOpen s e ∧
      shutdown isPointValid fmt canOpen2 s cloud = some (afterShutdown fmt canOpen2 s e) := by
  obtain ⟨e, he, hr⟩ := shutdown_eq_some isPointValid fmt canOpen s cloud r h
  refine ⟨e, he, hr, ?_⟩
  unfold shutdown at h ⊢
  simp only [he] at h ⊢
  cases h1 : writePly fmt canOpen "output_valid.ply" e.valid_point_count
      e.valid_point_vector with
  | none => simp [h1] at h
  | some f1 =>
    simp only [h1] at h
    cases h2 : writePly fmt canOpen "output_total.ply" e.total_point_count
        e.total_point_vector with
    | none => simp [h2] at h
    | some f2 =>
      simp only [h2] at h
      cases h3 : writePly fmt canOpen "output_aggrigate.ply" s.aggrigate_cloud_num
          s.aggrigate_cloud_vector with
      | none => simp [h3] at h
      | some f3 =>
        rw [writePly_transfer fmt canOpen canOpen2 _ _ _ f1 h1,
          writePly_transfer fmt canOpen canOpen2 _ _ _ f2 h2,
          writePly_transfer fmt canOpen canOpen2 _ _ _ f3 h3]
        rfl

end ShutdownFacts

/-! ## The scenario of the specification -/

/-- C1, as stated, fails: after the three frames of the scenario (gate enabled, `frame_max = 2`)
the aggregate is `[(1.5, 2, 3)]`, which differs from the claimed `[(1.5, 2, 3), (1.0, 0, 0)]`. -/
theorem scenario_aggregate_counterexample :
    Option.map Globals.aggrigate_cloud_vector
        (runFrames allValid scenarioGlobals scenarioFrames) = some [(3 / 2, 2, 3)] ∧
    Option.map Globals.aggrigate_cloud_vector
        (runFrames allValid scenarioGlobals scenarioFrames) ≠ some [(3 / 2, 2, 3), (1, 0, 0)] := by
  have h : Option.map Globals.aggrigate_cloud_vector
      (runFrames allValid scenarioGlobals scenarioFrames) = some [(3 / 2, 2, 3)] := by
    simp [runFrames, frameStep, aggregateLoop, aggregatePoint, intAdd, INT_MIN, INT_MAX,
      scenarioGlobals, scenarioFrames, allValid, globals]
    norm_num
  refine ⟨h, ?_⟩
  rw [h]
  simp

/-- C1, amended: in the scenario the first frame appends `(1.5, 2, 3)` under offset `0.5`; the
second and third frames advance the counter to `2` and `3`, which are not below `frame_max = 2`,
and append nothing, so the run ends with the aggregate `[(1.5, 2, 3)]` of length 1, the point
counter at 1 and the offset at `1.5`. -/
theorem scenario_aggregate :
    runFrames allValid scenarioGlobals (scenarioFrames.take 1) =
      some { scenarioGlobals with
        aggrigate_cloud_vector := [(3 / 2, 2, 3)], aggrigate_cloud_num := 1,
        frame_num := 1, n_x := 1 / 2 } ∧
    runFrames allValid scenarioGlobals (scenarioFrames.take 2) =
      some { scenarioGlobals with
        aggrigate_cloud_vector := [(3 / 2, 2, 3)], aggrigate_cloud_num := 1,
        frame_num := 2, n_x := 1 } ∧
    runFrames allValid scenarioGlobals scenarioFrames =
      some { scenarioGlobals with
        aggrigate_cloud_vector := [(3 / 2, 2, 3)], aggrigate_cloud_num := 1,
        frame_num := 3, n_x := 3 / 2 } ∧
    ([(3 / 2, 2, 3)] : List (array3 ℚ)).length = 1 := by
  refine ⟨?_, ?_, ?_, rfl⟩
  · simp [runFrames, frameStep, aggregateLoop, aggregatePoint, intAdd, INT_MIN, INT_MAX,
      scenarioGlobals, scenarioFrames, allValid, globals]
    norm_num
  · simp [runFrames, frameStep, aggregateLoop, aggregatePoint, intAdd, INT_MIN, INT_MAX,
      scenarioGlobals, scenarioFrames, allValid, globals]
    norm_num
  · simp [runFrames, frameStep, aggregateLoop, aggregatePoint, intAdd, INT_MIN, INT_MAX,
      scenarioGlobals, scenarioFrames, allValid, globals]
    norm_num

/-! ## Contract of one aggregation step and length of the aggregate -/

section StepClaims

variable {α : Type} [Add α] [Mul α]

/-- C2: one per-frame aggregation step advances the offset by `inc` and the counter by
`frame_inc`; when the advanced counter is below `frame_max` the new aggregate is the old one
followed by `(p.x + n_x', p.y * n_y, p.z * n_z)` for each valid point `p` of the cloud, in cloud
order, with `n_x'` the offset just updated; otherwise the aggregate is unchanged.  The step has
a result whenever the two `int` counters stay representable. -/
theorem frameStep_contract (isPointValid : nvx_point3f_t α → Bool) (s : Globals α)
    (cloud : List (nvx_point3f_t α)) :
    (∀ s1, frameStep isPointValid s cloud = some s1 →
      s1.n_x = s.n_x + s.inc ∧ s1.frame_num = s.frame_num + s.frame_inc ∧
      s1.aggrigate_cloud_vector =
        if s1.frame_num < s.frame_max then
          s.aggrigate_cloud_vector ++
            (cloud.filter isPointValid).map
              (fun p => (p.x + s1.n_x, p.y * s.n_y, p.z * s.n_z))
        else s.aggrigate_cloud_vector) ∧
    (IsInt (s.frame_num + s.frame_inc) → INT_MIN ≤ s.aggrigate_cloud_num →
      s.aggrigate_cloud_num + (cloud.countP isPointValid : Nat) ≤ INT_MAX →
      (frameStep isPointValid s cloud).isSome = true) := by
  constructor
  · intro s1 h
    obtain ⟨_, h1⟩ := frameStep_eq_some isPointValid s s1 cloud h
    subst h1
    obtain ⟨cfn, _, _, cnx, _, _, _⟩ := afterStep_config isPointValid s cloud
    refine ⟨cnx, cfn, ?_⟩
    rw [afterStep_vector, cfn, cnx]
    rfl
  · intro hfn hlo hhi
    rw [frameStep_defined isPointValid s cloud hfn (fun _ => ⟨hlo, hhi⟩)]
    rfl

/-- C3: a step whose advanced counter is below `frame_max` lengthens the aggregate by exactly
the number of valid points of the cloud; a step whose advanced counter has reached `frame_max`
(is equal to it or above it) leaves the aggregate and its length as they were, whatever the
cloud; an empty cloud never changes the aggregate; with `frame_inc = 1`, once `frame_num` has
reached `frame_max`, every further run of frames, whatever the clouds, leaves the aggregate and
its length as they were, and the run has a result for as many frames as keep the counter an
`int`. -/
theorem aggregate_length (isPointValid : nvx_point3f_t α → Bool) (s : Globals α) :
    (∀ cloud s1, frameStep isPointValid s cloud = some s1 → s1.frame_num < s.frame_max →
      s1.aggrigate_cloud_vector.length =
        s.aggrigate_cloud_vector.length + cloud.countP isPointValid) ∧
    (∀ cloud s1, frameStep isPointValid s cloud = some s1 → s.frame_max ≤ s1.frame_num →
      s1.aggrigate_cloud_vector = s.aggrigate_cloud_vector ∧
      s1.aggrigate_cloud_vector.length = s.aggrigate_cloud_vector.length) ∧
    (∀ s1, frameStep isPointValid s [] = some s1 →
      s1.aggrigate_cloud_vector = s.aggrigate_cloud_vector) ∧
    (s.frame_inc = 1 → s.frame_max ≤ s.frame_num →
      ∀ frames : List (List (nvx_point3f_t α)),
        (∀ s1, runFrames isPointValid s frames = some s1 →
          s1.aggrigate_cloud_vector = s.aggrigate_cloud_vector ∧
          s1.aggrigate_cloud_vector.length = s.aggrigate_cloud_vector.length) ∧
        (IsInt s.frame_num → s.frame_num + (frames.length : Nat) ≤ INT_MAX →
          (runFrames isPointValid s frames).isSome = true)) := by
  refine ⟨?_, ?_, ?_, ?_⟩
  · intro cloud s1 h hg
    obtain ⟨_, h1⟩ := frameStep_eq_some isPointValid s s1 cloud h
    subst h1
    rw [(afterStep_config isPointValid s cloud).1] at hg
    rw [afterStep_vector, if_pos hg, List.length_append, List.length_map,
      List.countP_eq_length_filter]
  · intro cloud s1 h hg
    obtain ⟨_, h1⟩ := frameStep_eq_some isPointValid s s1 cloud h
    subst h1
    rw [(afterStep_config isPointValid s cloud).1] at hg
    have hv : (afterStep isPointValid s cloud).aggrigate_cloud_vector
        = s.aggrigate_cloud_vector := by
      rw [afterStep_vector, if_neg (not_lt.mpr hg)]
    exact ⟨hv, by rw [hv]⟩
  · intro s1 h
    obtain ⟨_, h1⟩ := frameStep_eq_some isPointValid s s1 [] h
    subst h1
    rw [afterStep_vector]
    split_ifs <;> simp
  · intro hinc hmax frames
    refine ⟨fun s1 h => ?_, fun hint hlen => ?_⟩
    · have hv := runFrames_gate_closed isPointValid frames s s1 (by rw [hinc]; decide) hmax h
      exact ⟨hv, by rw [hv]⟩
    · exact runFrames_gate_closed_defined isPointValid frames s hinc hmax hint hlen

end StepClaims

/-- Witness of C2 on `sampleGlobals` and `sampleCloud`: the step has the result
`sampleAfterStep`, which satisfies the contract. -/
theorem frameStep_contract_witness :
    (IsInt (sampleGlobals.frame_num + sampleGlobals.frame_inc) ∧
      (frameStep samplePositive sampleGlobals sampleCloud).isSome = true) ∧
    frameStep samplePositive sampleGlobals sampleCloud = some sampleAfterStep ∧
    (sampleAfterStep.n_x = sampleGlobals.n_x + sampleGlobals.inc ∧
      sampleAfterStep.frame_num = sampleGlobals.frame_num + sampleGlobals.frame_inc ∧
      sampleAfterStep.aggrigate_cloud_vector =
        if sampleAfterStep.frame_num < sampleGlobals.frame_max then
          sampleGlobals.aggrigate_cloud_vector ++
            (sampleCloud.filter samplePositive).map
              (fun p => (p.x + sampleAfterStep.n_x, p.y * sampleGlobals.n_y,
                p.z * sampleGlobals.n_z))
        else sampleGlobals.aggrigate_cloud_vector) :=
  ⟨⟨by decide,
      (frameStep_contract samplePositive sampleGlobals sampleCloud).2
        (by decide) (by decide) (by decide)⟩,
    by decide,
    (frameStep_contract samplePositive sampleGlobals sampleCloud).1 sampleAfterStep
      (by decide)⟩

/-- Witness of C3: the step from `sampleGlobals` adds the two valid points of `sampleCloud`;
the step from `sampleAtGate`, whose advance brings the counter to `frame_max` exactly, adds
nothing; and from `sampleGated` three further frames lead to `sampleGatedAfter` with the
aggregate as it was. -/
theorem aggregate_length_witness :
    (frameStep samplePositive sampleGlobals sampleCloud = some sampleAfterStep ∧
      sampleAfterStep.aggrigate_cloud_vector.length =
        sampleGlobals.aggrigate_cloud_vector.length + sampleCloud.countP samplePositive) ∧
    (frameStep samplePositive sampleAtGate sampleCloud = some sampleAtGateAfter ∧
      sampleAtGateAfter.frame_num = sampleAtGate.frame_max ∧
      sampleAtGateAfter.aggrigate_cloud_vector = sampleAtGate.aggrigate_cloud_vector ∧
      sampleAtGateAfter.aggrigate_cloud_vector.length =
        sampleAtGate.aggrigate_cloud_vector.length) ∧
    (sampleGated.frame_inc = 1 ∧ sampleGated.frame_max ≤ sampleGated.frame_num ∧
      runFrames samplePositive sampleGated [sampleCloud, [], sampleCloud]
        = some sampleGatedAfter) ∧
    (sampleGatedAfter.aggrigate_cloud_vector = sampleGated.aggrigate_cloud_vector ∧
      sampleGatedAfter.aggrigate_cloud_vector.length =
        sampleGated.aggrigate_cloud_vector.length) ∧
    (runFrames samplePositive sampleGated [sampleCloud, [], sampleCloud]).isSome = true :=
  ⟨⟨by decide,
      (aggregate_length samplePositive sampleGlobals).1 sampleCloud sampleAfterStep
        (by decide) (by decide)⟩,
    ⟨by decide, by decide,
      (aggregate_length samplePositive sampleAtGate).2.1 sampleCloud sampleAtGateAfter
        (by decide) (by decide)⟩,
    ⟨by decide, by decide, by decide⟩,
    ((aggregate_length samplePositive sampleGated).2.2.2 (by decide) (by decide)
      [sampleCloud, [], sampleCloud]).1 sampleGatedAfter (by decide),
    ((aggregate_length samplePositive sampleGated).2.2.2 (by decide) (by decide)
      [sampleCloud, [], sampleCloud]).2 (by decide) (by decide)⟩

/-! ## Extraction and PLY texts at shutdown -/

section ExtractClaims

variable {α : Type}

/-- C4: the extraction at shutdown makes `total_point_vector` the source items verbatim in
source order and `valid_point_vector` the items satisfying `isPointValid` in the same relative
order; hence the valid vector is a subsequence of the total one and is not longer; an empty
source gives two empty vectors; the extraction has a result whenever the item count fits in an
`int`. -/
theorem extract_contract (isPointValid : nvx_point3f_t α → Bool)
    (cloud : List (nvx_point3f_t α)) :
    (∀ e, extract isPointValid cloud = some e →
      e.total_point_vector = cloud.map coords ∧
      e.valid_point_vector = (cloud.filter isPointValid).map coords ∧
      List.Sublist e.valid_point_vector e.total_point_vector ∧
      e.valid_point_vector.length ≤ e.total_point_vector.length) ∧
    (((cloud.length : Nat) : Int) ≤ INT_MAX → (extract isPointValid cloud).isSome = true) ∧
    extract isPointValid ([] : List (nvx_point3f_t α)) =
      some { valid_point_vector := [], total_point_vector := [],
             valid_point_count := 0, total_point_count := 0 } := by
  refine ⟨?_, ?_, ?_⟩
  · intro e h
    have he := extract_eq_some isPointValid cloud e h
    subst he
    have hs : List.Sublist ((cloud.filter isPointValid).map coords) (cloud.map coords) :=
      (List.filter_sublist cloud).map coords
    exact ⟨rfl, rfl, hs, hs.length_le⟩
  · intro h
    rw [extract_defined isPointValid cloud h]
    rfl
  · simp [extract]

/-- C5: in every state reached from an empty aggregate with its counter at zero,
`aggrigate_cloud_num` equals the length of the aggregate; whenever the shutdown has a result,
the two extraction counters equal the lengths of their vectors and each of the three files that
could be created holds the header declaring `N` = the number of points of its sequence followed
by one line `x y z` per point, in order; the shutdown has a result whenever the size of the last
cloud fits in an `int`; the text for an empty sequence is the header with vertex count 0 and no
line. -/
theorem ply_export [Add α] [Mul α] (isPointValid : nvx_point3f_t α → Bool)
    (fmt : α → String) (canOpen : String → Bool) (s0 s : Globals α)
    (frames : List (List (nvx_point3f_t α))) (cloud : List (nvx_point3f_t α))
    (hvec : s0.aggrigate_cloud_vector = []) (hnum : s0.aggrigate_cloud_num = 0)
    (hrun : runFrames isPointValid s0 frames = some s) :
    s.aggrigate_cloud_num = (s.aggrigate_cloud_vector.length : Nat) ∧
    (∀ r, shutdown isPointValid fmt canOpen s cloud = some r →
      ∃ e, extract isPointValid cloud = some e ∧
        e.valid_point_count = (e.valid_point_vector.length : Nat) ∧
        e.total_point_count = (e.total_point_vector.length : Nat) ∧
        r.output_valid =
          (if canOpen "output_valid.ply" = true then
            some (plySpec fmt e.valid_point_vector) else none) ∧
        r.output_total =
          (if canOpen "output_total.ply" = true then
            some (plySpec fmt e.total_point_vector) else none) ∧
        r.output_aggrigate =
          (if canOpen "output_aggrigate.ply" = true then
            some (plySpec fmt s.aggrigate_cloud_vector) else none)) ∧
    (((cloud.length : Nat) : Int) ≤ INT_MAX →
      (shutdown isPointValid fmt canOpen s cloud).isSome = true) ∧
    plySpec fmt ([] : List (array3 α)) =
      "ply\nformat ascii 1.0\nelement vertex 0\nproperty float x\nproperty float y\nproperty float z\nend_header\n" := by
  obtain ⟨hc, hi⟩ := runFrames_counter isPointValid frames s0 s hrun
  rw [hvec, hnum] at hc
  simp only [List.length_nil, Nat.cast_zero, add_zero, zero_add] at hc
  have hint : IsInt s.aggrigate_cloud_num := hi (by rw [hnum]; decide)
  refine ⟨hc, ?_, ?_, ?_⟩
  · intro r hr
    obtain ⟨e, he, hre⟩ := shutdown_eq_some isPointValid fmt canOpen s cloud r hr
    have hee := extract_eq_some isPointValid cloud e he
    subst hre
    subst hee
    refine ⟨_, he, ?_, ?_, ?_, ?_, ?_⟩
    · simp [List.countP_eq_length_filter]
    · simp
    · simp [afterShutdown, plyFile, plySpec, List.countP_eq_length_filter]
    · simp [afterShutdown, plyFile, plySpec]
    · simp [afterShutdown, plyFile, plySpec, hc]
  · intro hcloud
    have he := extract_defined isPointValid cloud hcloud
    have hfl : (((cloud.filter isPointValid).length : Nat) : Int) ≤ INT_MAX := by
      have h1 : (cloud.filter isPointValid).length ≤ cloud.length := List.length_filter_le _ _
      have h2 : (((cloud.filter isPointValid).length : Nat) : Int) ≤ (cloud.length : Nat) := by
        exact_mod_cast h1
      linarith
    rw [shutdown_defined isPointValid fmt canOpen s cloud _ he
      (by simpa using hfl) (by simpa using hcloud) (by rw [← hc]; exact hint.2)]
    rfl
  · simp only [plySpec, List.map_nil, concatLines, List.length_nil]
    decide

end ExtractClaims

/-- Witness of C4: the extraction of `sampleCloud` is `sampleExtraction`. -/
theorem extract_contract_witness :
    (((sampleCloud.length : Nat) : Int) ≤ INT_MAX ∧
      (extract samplePositive sampleCloud).isSome = true) ∧
    extract samplePositive sampleCloud = some sampleExtraction ∧
    (sampleExtraction.total_point_vector = sampleCloud.map coords ∧
      sampleExtraction.valid_point_vector = (sampleCloud.filter samplePositive).map coords ∧
      List.Sublist sampleExtraction.valid_point_vector sampleExtraction.total_point_vector ∧
      sampleExtraction.valid_point_vector.length ≤
        sampleExtraction.total_point_vector.length) :=
  ⟨⟨by decide, (extract_contract samplePositive sampleCloud).2.1 (by decide)⟩,
    by decide,
    (extract_contract samplePositive sampleCloud).1 sampleExtraction (by decide)⟩

/-- Witness of C5: from `sampleStart` one frame leads to `sampleStartAfter`, whose shutdown on
`sampleCloud` is `sampleShutdown`, with the counters equal to the lengths and PLY texts as
specified. -/
theorem ply_export_witness :
    (sampleStart.aggrigate_cloud_vector = [] ∧ sampleStart.aggrigate_cloud_num = 0 ∧
      runFrames samplePositive sampleStart [sampleCloud] = some sampleStartAfter ∧
      shutdown samplePositive showInt sampleCanOpen sampleStartAfter sampleCloud
        = some sampleShutdown ∧
      ((sampleCloud.length : Nat) : Int) ≤ INT_MAX) ∧
    sampleStartAfter.aggrigate_cloud_num =
      (sampleStartAfter.aggrigate_cloud_vector.length : Nat) ∧
    (∃ e, extract samplePositive sampleCloud = some e ∧
      e.valid_point_count = (e.valid_point_vector.length : Nat) ∧
      e.total_point_count = (e.total_point_vector.length : Nat) ∧
      sampleShutdown.output_valid =
        (if sampleCanOpen "output_valid.ply" = true then
          some (plySpec showInt e.valid_point_vector) else none) ∧
      sampleShutdown.output_total =
        (if sampleCanOpen "output_total.ply" = true then
          some (plySpec showInt e.total_point_vector) else none) ∧
      sampleShutdown.output_aggrigate =
        (if sampleCanOpen "output_aggrigate.ply" = true then
          some (plySpec showInt sampleStartAfter.aggrigate_cloud_vector) else none)) ∧
    (shutdown samplePositive showInt sampleCanOpen sampleStartAfter sampleCloud).isSome
      = true :=
  ⟨⟨by decide, by decide, by decide, by decide, by decide⟩,
    (ply_export samplePositive showInt sampleCanOpen sampleStart sampleStartAfter
      [sampleCloud] sampleCloud (by decide) (by decide) (by decide)).1,
    (ply_export samplePositive showInt sampleCanOpen sampleStart sampleStartAfter
      [sampleCloud] sampleCloud (by decide) (by decide) (by decide)).2.1 sampleShutdown
      (by decide),
    (ply_export samplePositive showInt sampleCanOpen sampleStart sampleStartAfter
      [sampleCloud] sampleCloud (by decide) (by decide) (by decide)).2.2.1 (by decide)⟩

/-! ## Gate settings -/

section GateClaims

variable {α : Type} [Add α] [Mul α]

/-- C6, amended: with `frame_inc = 0` and the counter below `frame_max` (as at program start
with a positive `frame_max`) the cap is off: every frame of every run appends all of its valid
points, the counter does not move, and the run has a result as long as the point counter has
room.  With `frame_max = 0` (counter and `frame_inc` non-negative) the cap is not off: no frame
appends anything. -/
theorem gate_settings (isPointValid : nvx_point3f_t α → Bool) (s : Globals α)
    (frames : List (List (nvx_point3f_t α))) :
    (s.frame_inc = 0 → s.frame_num < s.frame_max →
      (∀ s1, runFrames isPointValid s frames = some s1 →
        s1.frame_num = s.frame_num ∧
        s1.aggrigate_cloud_vector =
          s.aggrigate_cloud_vector ++
            allContributions isPointValid s.inc s.n_y s.n_z s.n_x frames) ∧
      (IsInt s.frame_num → INT_MIN ≤ s.aggrigate_cloud_num →
        s.aggrigate_cloud_num + (validCount isPointValid frames : Nat) ≤ INT_MAX →
        (runFrames isPointValid s frames).isSome = true)) ∧
    (s.frame_max = 0 → 0 ≤ s.frame_num → 0 ≤ s.frame_inc →
      ∀ s1, runFrames isPointValid s frames = some s1 →
        s1.aggrigate_cloud_vector = s.aggrigate_cloud_vector) := by
  refine ⟨fun hinc hlt => ⟨fun s1 h => ?_, fun hfn hlo hhi => ?_⟩, fun hmax hfn hinc s1 h => ?_⟩
  · exact runFrames_all_contribute isPointValid frames s s1 hinc hlt h
  · refine runFrames_defined isPointValid frames s hfn ?_ hlo hhi
    rw [hinc, mul_zero, add_zero]
    exact hfn
  · exact runFrames_gate_closed isPointValid frames s s1 hinc (by rw [hmax]; exact hfn) h

end GateClaims

/-- C6, as stated, fails: with `frame_max = 0` a frame holding two valid points appends nothing,
both with the gate enabled (`frame_inc = 1`) and with `frame_inc = 0`. -/
theorem gate_settings_counterexample :
    sampleCloud.countP samplePositive = 2 ∧
    (sampleZeroGate.frame_max = 0 ∧
      Option.map Globals.aggrigate_cloud_vector
        (frameStep samplePositive sampleZeroGate sampleCloud) = some []) ∧
    (sampleZeroSentinel.frame_max = 0 ∧ sampleZeroSentinel.frame_inc = 0 ∧
      Option.map Globals.aggrigate_cloud_vector
        (frameStep samplePositive sampleZeroSentinel sampleCloud) = some []) := by
  decide

/-- Witness of C6 (amended): from `sampleOpen` (`frame_inc = 0`) the three frames contribute all
their valid points; from `sampleZeroGate` (`frame_max = 0`) they contribute nothing. -/
theorem gate_settings_witness :
    (runFrames samplePositive sampleOpen [sampleCloud, [], sampleCloud] = some sampleOpenAfter ∧
      sampleOpenAfter.frame_num = sampleOpen.frame_num ∧
      sampleOpenAfter.aggrigate_cloud_vector =
        sampleOpen.aggrigate_cloud_vector ++
          allContributions samplePositive sampleOpen.inc sampleOpen.n_y sampleOpen.n_z
            sampleOpen.n_x [sampleCloud, [], sampleCloud]) ∧
    (runFrames samplePositive sampleOpen [sampleCloud, [], sampleCloud]).isSome = true ∧
    (runFrames samplePositive sampleZeroGate [sampleCloud, [], sampleCloud]
        = some sampleZeroGateAfter ∧
      sampleZeroGateAfter.aggrigate_cloud_vector = sampleZeroGate.aggrigate_cloud_vector) :=
  ⟨⟨by decide,
      ((gate_settings samplePositive sampleOpen [sampleCloud, [], sampleCloud]).1
        (by decide) (by decide)).1 sampleOpenAfter (by decide)⟩,
    ((gate_settings samplePositive sampleOpen [sampleCloud, [], sampleCloud]).1
      (by decide) (by decide)).2 (by decide) (by decide) (by decide),
    by decide,
    (gate_settings samplePositive sampleZeroGate [sampleCloud, [], sampleCloud]).2
      (by decide) (by decide) (by decide) sampleZeroGateAfter (by decide)⟩

/-- C7, as stated, fails: the initial value of `frame_inc` is 0, so the gate is not active; from
the initial globals the frame counter is still 0 after 50 frames and the 51st frame still
appends its point (the aggregate goes from 50 to 51 points). -/
theorem default_gate_counterexample :
    globals.frame_inc = 0 ∧
    Option.map (fun s : Globals ℚ => (s.frame_num, s.aggrigate_cloud_vector.length))
        (runFrames allValid globals (List.replicate 50 [⟨0, 0, 0⟩])) = some (0, 50) ∧
    Option.map (fun s : Globals ℚ => (s.frame_num, s.aggrigate_cloud_vector.length))
        (runFrames allValid globals (List.replicate 51 [⟨0, 0, 0⟩])) = some (0, 51) := by
  decide

/-- C7, amended: with every aggregation global at its initial value, `frame_max` is 50 but
`frame_inc` is 0, so the gate is inactive: for every sequence of frames the frame counter stays
at 0 and every frame appends all of its valid points (offset advanced by 0.5 per frame, unit
scales); the run has a result as long as the number of valid points fits in an `int`. -/
theorem default_gate_inactive (isPointValid : nvx_point3f_t ℚ → Bool)
    (frames : List (List (nvx_point3f_t ℚ))) :
    globals.frame_max = 50 ∧ globals.frame_inc = 0 ∧
    (∀ s1, runFrames isPointValid globals frames = some s1 →
      s1.frame_num = 0 ∧
      s1.aggrigate_cloud_vector = allContributions isPointValid (1 / 2) 1 1 0 frames) ∧
    (((validCount isPointValid frames : Nat) : Int) ≤ INT_MAX →
      (runFrames isPointValid globals frames).isSome = true) := by
  refine ⟨rfl, rfl, fun s1 h => ?_, fun hc => ?_⟩
  · have := runFrames_all_contribute isPointValid frames globals s1 rfl (by decide) h
    simpa [globals] using this
  · refine runFrames_defined isPointValid frames globals (by decide) ?_ (by decide) ?_
    · have h0 : globals.frame_inc = 0 := rfl
      rw [h0, mul_zero, add_zero]
      decide
    · have h0 : globals.aggrigate_cloud_num = 0 := rfl
      rw [h0, zero_add]
      exact hc

/-- Witness of C7 (amended): from the initial globals the frames empty, `[(1,2,3)]`,
`[(0,0,0)]` lead to `defaultAfterRun`, whose counter is 0 and whose aggregate holds both
points. -/
theorem default_gate_inactive_witness :
    runFrames allValid globals [[], [⟨1, 2, 3⟩], [⟨0, 0, 0⟩]] = some defaultAfterRun ∧
    (defaultAfterRun.frame_num = 0 ∧
      defaultAfterRun.aggrigate_cloud_vector =
        allContributions allValid (1 / 2) 1 1 0 [[], [⟨1, 2, 3⟩], [⟨0, 0, 0⟩]]) ∧
    (runFrames allValid globals [[], [⟨1, 2, 3⟩], [⟨0, 0, 0⟩]]).isSome = true := by
  have hrun : runFrames allValid globals [[], [⟨1, 2, 3⟩], [⟨0, 0, 0⟩]]
      = some defaultAfterRun := by
    simp [runFrames, frameStep, aggregateLoop, aggregatePoint, intAdd, INT_MIN, INT_MAX,
      allValid, globals, defaultAfterRun]
    norm_num
  exact ⟨hrun,
    (default_gate_inactive allValid [[], [⟨1, 2, 3⟩], [⟨0, 0, 0⟩]]).2.2.1 defaultAfterRun hrun,
    (default_gate_inactive allValid [[], [⟨1, 2, 3⟩], [⟨0, 0, 0⟩]]).2.2.2 (by decide)⟩

/-! ## Offsets along a run -/

/-- C8: in exact arithmetic and starting from `n_x = 0`, the `k`-th frame of a run (`k - 1`
frames `pre` before it, of any content) extends the aggregate by its valid points shifted by
`k * inc` when its counter is below the gate and by nothing otherwise, and whatever frames
`post` follow, the aggregate left by the `k`-th frame is an initial segment of the final
one. -/
theorem offset_of_kth_frame (isPointValid : nvx_point3f_t ℚ → Bool) (s0 s3 : Globals ℚ)
    (pre post : List (List (nvx_point3f_t ℚ))) (cloud : List (nvx_point3f_t ℚ))
    (h0 : s0.n_x = 0)
    (h : runFrames isPointValid s0 (pre ++ cloud :: post) = some s3) :
    ∃ s1 s2, runFrames isPointValid s0 pre = some s1 ∧
      frameStep isPointValid s1 cloud = some s2 ∧
      runFrames isPointValid s2 post = some s3 ∧
      s2.n_x = ((pre.length + 1 : Nat) : ℚ) * s0.inc ∧
      s2.aggrigate_cloud_vector =
        s1.aggrigate_cloud_vector ++
          (if s2.frame_num < s0.frame_max then
            (cloud.filter isPointValid).map
              (fun p => (p.x + ((pre.length + 1 : Nat) : ℚ) * s0.inc, p.y * s0.n_y,
                p.z * s0.n_z))
          else []) ∧
      s2.aggrigate_cloud_vector <+: s3.aggrigate_cloud_vector := by
  rw [runFrames_append] at h
  cases hpre : runFrames isPointValid s0 pre with
  | none => simp [hpre] at h
  | some s1 =>
    simp only [hpre] at h
    obtain ⟨hstep, hpost⟩ := runFrames_cons_some isPointValid s1 s3 cloud post h
    obtain ⟨_, hmax, _, hi, hy, hz, _⟩ := runFrames_invariants isPointValid pre s0 s1 hpre
    have hnx := runFrames_offset isPointValid pre s0 s1 hpre
    obtain ⟨cfn, _, _, cnx, _, _, _⟩ := afterStep_config isPointValid s1 cloud
    have hoff : s1.n_x + s1.inc = ((pre.length + 1 : Nat) : ℚ) * s0.inc := by
      rw [hnx, h0, hi]
      push_cast
      ring
    refine ⟨s1, afterStep isPointValid s1 cloud, rfl, hstep, hpost, by rw [cnx, hoff], ?_,
      (runFrames_invariants isPointValid post _ s3 hpost).1⟩
    rw [afterStep_vector, cfn, hmax, hoff, hy, hz]
    split_ifs
    · rfl
    · simp

/-- Witness of C8: from the initial globals, `defaultCloud` processed as second frame gets the
offset `2 * 0.5`, and the later frame leaves its point in place. -/
theorem offset_of_kth_frame_witness :
    (globals.n_x = 0 ∧
      runFrames allValid globals (defaultPre ++ defaultCloud :: defaultPost)
        = some defaultAfterRun) ∧
    ∃ s1 s2, runFrames allValid globals defaultPre = some s1 ∧
      frameStep allValid s1 defaultCloud = some s2 ∧
      runFrames allValid s2 defaultPost = some defaultAfterRun ∧
      s2.n_x = ((defaultPre.length + 1 : Nat) : ℚ) * globals.inc ∧
      s2.aggrigate_cloud_vector =
        s1.aggrigate_cloud_vector ++
          (if s2.frame_num < globals.frame_max then
            (defaultCloud.filter allValid).map
              (fun p => (p.x + ((defaultPre.length + 1 : Nat) : ℚ) * globals.inc,
                p.y * globals.n_y, p.z * globals.n_z))
          else []) ∧
      s2.aggrigate_cloud_vector <+: defaultAfterRun.aggrigate_cloud_vector := by
  have hrun : runFrames allValid globals (defaultPre ++ defaultCloud :: defaultPost)
      = some defaultAfterRun := by
    simp [runFrames, frameStep, aggregateLoop, aggregatePoint, intAdd, INT_MIN, INT_MAX,
      allValid, globals, defaultAfterRun, defaultPre, defaultCloud, defaultPost]
    norm_num
  exact ⟨⟨rfl, hrun⟩,
    offset_of_kth_frame allValid globals defaultAfterRun defaultPre defaultPost defaultCloud
      rfl hrun⟩

/-! ## Open failures of the export -/

section ReportClaims

variable {α : Type}

/-- C9, amended: a file that cannot be opened is not reported.  Whenever the shutdown has a
result, nothing is sent to `std::cerr` and `main` returns `APP_EXIT_CODE_SUCCESS`; under any
other file system the shutdown has a result with the same `std::cout`, `std::cerr` and exit
code; a file exists afterwards exactly when its own path could be opened, and its content does
not depend on whether the other two paths could be opened, so each write is attempted. -/
theorem export_open_failure_unreported (isPointValid : nvx_point3f_t α → Bool)
    (fmt : α → String) (canOpen : String → Bool) (s : Globals α)
    (cloud : List (nvx_point3f_t α)) (r : Shutdown)
    (h : shutdown isPointValid fmt canOpen s cloud = some r) :
    r.cerr = [] ∧ r.exitCode = ExitCode.APP_EXIT_CODE_SUCCESS ∧
    (r.output_valid.isSome = canOpen "output_valid.ply" ∧
      r.output_total.isSome = canOpen "output_total.ply" ∧
      r.output_aggrigate.isSome = canOpen "output_aggrigate.ply") ∧
    ∀ canOpen2 : String → Bool,
      ∃ r2, shutdown isPointValid fmt canOpen2 s cloud = some r2 ∧
        r2.cout = r.cout ∧ r2.cerr = r.cerr ∧ r2.exitCode = r.exitCode ∧
        (canOpen2 "output_valid.ply" = canOpen "output_valid.ply" →
          r2.output_valid = r.output_valid) ∧
        (canOpen2 "output_total.ply" = canOpen "output_total.ply" →
          r2.output_total = r.output_total) ∧
        (canOpen2 "output_aggrigate.ply" = canOpen "output_aggrigate.ply" →
          r2.output_aggrigate = r.output_aggrigate) := by
  obtain ⟨e, he, hr⟩ := shutdown_eq_some isPointValid fmt canOpen s cloud r h
  subst hr
  refine ⟨rfl, rfl, ⟨?_, ?_, ?_⟩, ?_⟩
  · cases hc : canOpen "output_valid.ply" <;> simp [afterShutdown, plyFile, hc]
  · cases hc : canOpen "output_total.ply" <;> simp [afterShutdown, plyFile, hc]
  · cases hc : canOpen "output_aggrigate.ply" <;> simp [afterShutdown, plyFile, hc]
  · intro canOpen2
    obtain ⟨e2, he2, _, h2⟩ := shutdown_transfer isPointValid fmt canOpen canOpen2 s cloud _ h
    have hee : e2 = e := Option.some.inj (he2.symm.trans he)
    subst hee
    refine ⟨afterShutdown fmt canOpen2 s e2, h2, rfl, rfl, rfl, ?_, ?_, ?_⟩
    · intro hc
      simp [afterShutdown, plyFile, hc]
    · intro hc
      simp [afterShutdown, plyFile, hc]
    · intro hc
      simp [afterShutdown, plyFile, hc]

end ReportClaims

/-- C9, as stated, fails: when none of the three files can be opened, the shutdown of
`sampleStartAfter` on `sampleCloud` creates no file, sends nothing to `std::cerr` and returns
`APP_EXIT_CODE_SUCCESS`, with the same console output and exit code as when all three files
are written. -/
theorem export_open_failure_counterexample :
    shutdown samplePositive showInt noneCanOpen sampleStartAfter sampleCloud
      = some sampleShutdownNoFile ∧
    sampleShutdownNoFile.cerr = [] ∧
    sampleShutdownNoFile.exitCode = ExitCode.APP_EXIT_CODE_SUCCESS ∧
    sampleShutdownNoFile.output_valid = none ∧ sampleShutdownNoFile.output_total = none ∧
    sampleShutdownNoFile.output_aggrigate = none ∧
    Option.map (fun r : Shutdown => (r.cout, r.cerr, r.exitCode))
        (shutdown samplePositive showInt allCanOpen sampleStartAfter sampleCloud)
      = some (sampleShutdownNoFile.cout, sampleShutdownNoFile.cerr,
          sampleShutdownNoFile.exitCode) := by
  refine ⟨by decide, rfl, rfl, rfl, rfl, rfl, by decide⟩

/-- Witness of C9 (amended): with only `output_total.ply` failing to open, the shutdown of
`sampleStartAfter` on `sampleCloud` is `sampleShutdown`: no report, and the two other files
written. -/
theorem export_open_failure_unreported_witness :
    shutdown samplePositive showInt sampleCanOpen sampleStartAfter sampleCloud
      = some sampleShutdown ∧
    sampleShutdown.cerr = [] ∧ sampleShutdown.exitCode = ExitCode.APP_EXIT_CODE_SUCCESS ∧
    (sampleShutdown.output_valid.isSome = sampleCanOpen "output_valid.ply" ∧
      sampleShutdown.output_total.isSome = sampleCanOpen "output_total.ply" ∧
      sampleShutdown.output_aggrigate.isSome = sampleCanOpen "output_aggrigate.ply") :=
  ⟨by decide,
    (export_open_failure_unreported samplePositive showInt sampleCanOpen sampleStartAfter
      sampleCloud sampleShutdown (by decide)).1,
    (export_open_failure_unreported samplePositive showInt sampleCanOpen sampleStartAfter
      sampleCloud sampleShutdown (by decide)).2.1,
    (export_open_failure_unreported samplePositive showInt sampleCanOpen sampleStartAfter
      sampleCloud sampleShutdown (by decide)).2.2.1⟩

/-! ## Growth of the aggregate -/

section GrowthClaims

variable {α : Type} [Add α] [Mul α]

/-- C10: whatever the settings and the clouds, the aggregate before a run of loop iterations is
an initial segment of the aggregate after it, so nothing is removed, reordered or modified and
the length does not decrease. -/
theorem aggregate_only_grows (isPointValid : nvx_point3f_t α → Bool) (s s1 : Globals α)
    (frames : List (List (nvx_point3f_t α)))
    (h : runFrames isPointValid s frames = some s1) :
    s.aggrigate_cloud_vector <+: s1.aggrigate_cloud_vector ∧
    (∀ i (hi : i < s.aggrigate_cloud_vector.length),
      s1.aggrigate_cloud_vector[i]? = some (s.aggrigate_cloud_vector.get ⟨i, hi⟩)) ∧
    s.aggrigate_cloud_vector.length ≤ s1.aggrigate_cloud_vector.length := by
  have hp := (runFrames_invariants isPointValid frames s s1 h).1
  refine ⟨hp, ?_, hp.length_le⟩
  intro i hi
  obtain ⟨t, ht⟩ := hp
  rw [← ht, List.getElem?_append_left hi]
  simp

end GrowthClaims

/-- Witness of C10: the run from `sampleGlobals` to `sampleAfterRun` keeps the old aggregate as
an initial segment. -/
theorem aggregate_only_grows_witness :
    runFrames samplePositive sampleGlobals [sampleCloud, [], sampleCloud]
        = some sampleAfterRun ∧
    sampleGlobals.aggrigate_cloud_vector <+: sampleAfterRun.aggrigate_cloud_vector ∧
    sampleGlobals.aggrigate_cloud_vector.length ≤
      sampleAfterRun.aggrigate_cloud_vector.length :=
  ⟨by decide,
    (aggregate_only_grows samplePositive sampleGlobals sampleAfterRun
      [sampleCloud, [], sampleCloud] (by decide)).1,
    (aggregate_only_grows samplePositive sampleGlobals sampleAfterRun
      [sampleCloud, [], sampleCloud] (by decide)).2.2⟩

/-! ## Iterations of the processing loop -/

section LoopFacts

variable {α : Type} [Add α] [Mul α]

/-- A paused iteration runs the aggregation block on the cloud `sfm` already holds. -/
theorem loopIteration_paused (isPointValid : nvx_point3f_t α → Bool) (noLoop : Bool)
    (st : LoopState α) (it : Iteration α) (hp : it.pause = true) :
    loopIteration isPointValid noLoop st it =
      renderAndAggregate isPointValid st.globals st.cloud it.flush := by
  simp [loopIteration, hp]

/-- Whenever a paused iteration has a result, its globals are those of one more aggregation
step on the unchanged cloud. -/
theorem loopIteration_paused_globals (isPointValid : nvx_point3f_t α → Bool) (noLoop : Bool)
    (st st1 : LoopState α) (it : Iteration α) (c : Control) (hp : it.pause = true)
    (h : loopIteration isPointValid noLoop st it = some (st1, c)) :
    frameStep isPointValid st.globals st.cloud = some st1.globals ∧ st1.cloud = st.cloud := by
  rw [loopIteration_paused isPointValid noLoop st it hp] at h
  unfold renderAndAggregate at h
  cases hs : frameStep isPointValid st.globals st.cloud with
  | none => simp [hs] at h
  | some g =>
    simp only [hs, Option.some.injEq, Prod.mk.injEq] at h
    obtain ⟨h1, _⟩ := h
    subst h1
    exact ⟨rfl, rfl⟩

/-- An iteration that is not paused and whose fetch reports `TIMEOUT` or `CLOSED` has a result
and leaves the globals untouched. -/
theorem loopIteration_not_fetched (isPointValid : nvx_point3f_t α → Bool) (noLoop : Bool)
    (st : LoopState α) (it : Iteration α) (hp : it.pause = false)
    (hf : it.fetch ≠ FrameStatus.OK) :
    ∃ st1 c, loopIteration isPointValid noLoop st it = some (st1, c) ∧
      st1.globals = st.globals := by
  unfold loopIteration
  cases hfe : it.fetch with
  | OK => exact absurd hfe hf
  | TIMEOUT => exact ⟨st, Control.again, by simp [hp], rfl⟩
  | CLOSED =>
    cases noLoop with
    | true => exact ⟨st, Control.leave, by simp [hp], rfl⟩
    | false =>
      cases hr : it.reopen with
      | false => exact ⟨st, Control.leave, by simp [hp, hr], rfl⟩
      | true =>
        exact ⟨{ st with cloud := it.initCloud }, Control.again, by simp [hp, hr], rfl⟩

end LoopFacts

/-- C11 does not hold of the code: the aggregation block lies outside `if (!eventData.pause)`.
From the initial globals, the iteration that fetches and tracks the frame with cloud
`[(1, 2, 3)]` appends `(1.5, 2, 3)`; the paused iteration that follows, in which nothing is
fetched or tracked, runs the block again on the same cloud, so `n_x` goes from 0.5 to 1.0,
`aggrigate_cloud_num` from 1 to 2, and the same point is appended once more as `(2, 2, 3)`.
With `frame_inc = 1` (`sampleStartAfter`) a paused iteration advances `frame_num` as well. -/
theorem paused_iteration_folds_again :
    runLoop allValid false ⟨globals, []⟩ [defaultTrackedIteration]
      = some ⟨defaultTracked, defaultCloud⟩ ∧
    (defaultPausedIteration.pause = true ∧
      loopIteration allValid false ⟨defaultTracked, defaultCloud⟩ defaultPausedIteration
        = some (⟨defaultPausedAfter, defaultCloud⟩, Control.again)) ∧
    (defaultPausedAfter.n_x ≠ defaultTracked.n_x ∧
      defaultPausedAfter.aggrigate_cloud_num ≠ defaultTracked.aggrigate_cloud_num ∧
      defaultPausedAfter.aggrigate_cloud_vector ≠ defaultTracked.aggrigate_cloud_vector) ∧
    (samplePausedIteration.pause = true ∧
      loopIteration samplePositive false ⟨sampleStartAfter, sampleCloud⟩ samplePausedIteration
        = some (⟨samplePausedAfter, sampleCloud⟩, Control.again)) ∧
    (samplePausedAfter.frame_num ≠ sampleStartAfter.frame_num ∧
      samplePausedAfter.n_x ≠ sampleStartAfter.n_x ∧
      samplePausedAfter.aggrigate_cloud_num ≠ sampleStartAfter.aggrigate_cloud_num ∧
      samplePausedAfter.aggrigate_cloud_vector ≠ sampleStartAfter.aggrigate_cloud_vector) := by
  refine ⟨?_, ⟨rfl, ?_⟩, ⟨?_, ?_, ?_⟩, ⟨rfl, by decide⟩, by decide⟩
  · simp [runLoop, loopIteration, renderAndAggregate, frameStep, aggregateLoop,
      aggregatePoint, intAdd, INT_MIN, INT_MAX, allValid, globals, defaultTrackedIteration,
      defaultTracked, defaultCloud]
    norm_num
  · simp [loopIteration, renderAndAggregate, frameStep, aggregateLoop,
      aggregatePoint, intAdd, INT_MIN, INT_MAX, allValid, globals, defaultPausedIteration,
      defaultTracked, defaultPausedAfter, defaultCloud]
    norm_num
  · norm_num [defaultPausedAfter, defaultTracked, globals]
  · simp [defaultPausedAfter, defaultTracked, globals]
  · simp [defaultPausedAfter, defaultTracked, globals]

end SfM
